import Mathlib

/-!
# MemoryMonitor: sampling and ranking engine

A shallow embedding of `src/src/ProcessInfo.cpp`, `src/src/SystemMonitor.cpp` and the
numeric parts of `src/src/MainWindow.cpp`.

* Unsigned 64-bit quantities are naturals, reduced modulo `2 ^ 64` where the source
  computes with them; `pid_t` and `int` are integers.
* The host (libproc / mach) is an explicit argument: every query the source makes is a
  field of `Host` or `ProcSys` holding the answer of the operating system.
* `double` values are rationals; every arithmetic operation rounds its exact result to
  53 significant bits, ties to even (`roundNE`).  The exponent range is not bounded:
  the model is exact for binary64 as long as no result overflows or is subnormal, which
  is the case for all values computed here (quotients of 64-bit integers, times 100,
  and sums of fewer than `2 ^ 31` of them).
-/

namespace MemoryMonitor

/-! ## `double` arithmetic -/

/-- Halving `n` until it is below 2, at most `fuel` times, counting the steps. -/
def log2Loop : Nat → Nat → Nat
  | 0, _ => 0
  | fuel + 1, n => if n < 2 then 0 else log2Loop fuel (n / 2) + 1

/-- The floor of the binary logarithm of a positive natural number. -/
def natLog2 (n : Nat) : Nat := log2Loop n n

/-- The floor of the binary logarithm of a positive rational. -/
def ilog2 (a : ℚ) : ℤ :=
  let e0 : ℤ := (natLog2 a.num.natAbs : ℤ) - (natLog2 a.den : ℤ)
  if (2 : ℚ) ^ e0 ≤ a then e0 else e0 - 1

/-- Rounding of a rational to the nearest integer, ties to the even one. -/
def rne (m : ℚ) : ℤ :=
  let f := ⌊m⌋
  if m - f < 1 / 2 then f
  else if 1 / 2 < m - f then f + 1
  else if f % 2 = 0 then f else f + 1

/-- Rounding of an exact result to binary64: 53 significant bits, nearest, ties to
even. A positive `x` with `2 ^ e ≤ x < 2 ^ (e + 1)` is rounded to a multiple of
`2 ^ (e - 52)`. -/
def roundNE (x : ℚ) : ℚ :=
  if x = 0 then 0
  else if 0 < x then (rne (x / 2 ^ (ilog2 x - 52)) : ℚ) * 2 ^ (ilog2 x - 52)
  else -((rne (-x / 2 ^ (ilog2 (-x) - 52)) : ℚ) * 2 ^ (ilog2 (-x) - 52))

/-- Values of C++ type `double`. -/
abbrev Double := ℚ

/-- The conversion `static_cast<double>(n)` of a 64-bit unsigned integer. -/
def ofU64 (n : Nat) : Double := roundNE (n : ℚ)

/-- Operator `+` on `double`. -/
def fadd (a b : Double) : Double := roundNE (a + b)

/-- Operator `*` on `double`. -/
def fmul (a b : Double) : Double := roundNE (a * b)

/-- Operator `/` on `double`, for a divisor other than zero. -/
def fdiv (a b : Double) : Double := roundNE (a / b)

/-- The conversion of an `int` to `size_t`. -/
def toSizeT (i : Int) : Nat := (i % 2 ^ 64).toNat

/-- The conversion of a `size_t` to `int` (two's complement, 32 bits). -/
def toInt32 (n : Nat) : Int :=
  if n % 2 ^ 32 < 2 ^ 31 then ((n % 2 ^ 32 : Nat) : Int) else ((n % 2 ^ 32 : Nat) : Int) - 2 ^ 32

/-! ## ProcessInfo (`ProcessInfo.h`, `ProcessInfo.cpp`) -/

/-- The two fields of `struct proc_taskinfo` that the source reads. -/
structure ProcTaskInfo where
  pti_virtual_size : Nat
  pti_resident_size : Nat
deriving DecidableEq, Repr

/-- Answers of libproc at the time one `ProcessInfo` is constructed.
`proc_pidinfo pid` is `some ti` exactly when the call returns `sizeof(ti)`;
`proc_pidpath pid` and `proc_name pid` are `some s` exactly when the call returns a
positive length, `s` being the C string left in the buffer. -/
structure ProcSys where
  proc_pidinfo : Int → Option ProcTaskInfo
  proc_pidpath : Int → Option (List Char)
  proc_name : Int → Option (List Char)

/-- Class `ProcessInfo` with its private members. -/
structure ProcessInfo where
  m_pid : Int
  m_name : List Char
  m_path : List Char
  m_residentSize : Nat
  m_virtualSize : Nat
  m_valid : Bool
deriving DecidableEq, Repr

/-- The C function `strrchr`: the suffix of `s` that starts at the last occurrence of
`c`, or `none` (a null pointer) when `c` does not occur. -/
def strrchr : List Char → Char → Option (List Char)
  | [], _ => none
  | x :: xs, c =>
    match strrchr xs c with
    | some r => some r
    | none => if x = c then some (x :: xs) else none

namespace ProcessInfo

/-- Default constructor `ProcessInfo::ProcessInfo()`. -/
def default : ProcessInfo :=
  { m_pid := 0, m_name := [], m_path := [], m_residentSize := 0, m_virtualSize := 0,
    m_valid := false }

def getPid (p : ProcessInfo) : Int := p.m_pid

def getName (p : ProcessInfo) : List Char := p.m_name

def getPath (p : ProcessInfo) : List Char := p.m_path

def getResidentSize (p : ProcessInfo) : Nat := p.m_residentSize

def getVirtualSize (p : ProcessInfo) : Nat := p.m_virtualSize

def isValid (p : ProcessInfo) : Bool := p.m_valid

/-- Method `ProcessInfo::collectProcessInfo`: the returned flag and the object after
the call. -/
def collectProcessInfo (sys : ProcSys) (p : ProcessInfo) : Bool × ProcessInfo :=
  match sys.proc_pidinfo p.m_pid with
  | none => (false, { p with m_valid := false })
  | some ti =>
    let p1 := { p with m_residentSize := ti.pti_resident_size,
                       m_virtualSize := ti.pti_virtual_size }
    let p2 :=
      match sys.proc_pidpath p1.m_pid with
      | some pathBuffer =>
        match strrchr pathBuffer '/' with
        | some lastSlash => { p1 with m_path := pathBuffer, m_name := lastSlash.drop 1 }
        | none => { p1 with m_path := pathBuffer, m_name := pathBuffer }
      | none =>
        match sys.proc_name p1.m_pid with
        | some nameBuffer => { p1 with m_name := nameBuffer, m_path := [] }
        | none => { p1 with m_name := "Unknown".toList, m_path := [] }
    (true, { p2 with m_valid := true })

/-- Method `ProcessInfo::update`. -/
def update (sys : ProcSys) (p : ProcessInfo) : Bool × ProcessInfo :=
  if p.m_pid ≤ 0 then (false, { p with m_valid := false })
  else collectProcessInfo sys p

/-- Constructor `ProcessInfo::ProcessInfo(pid_t pid)`. -/
def ofPid (sys : ProcSys) (pid : Int) : ProcessInfo :=
  (update sys { m_pid := pid, m_name := [], m_path := [], m_residentSize := 0,
                m_virtualSize := 0, m_valid := false }).2

/-- Method `ProcessInfo::getMemoryPercentage`. -/
def getMemoryPercentage (p : ProcessInfo) (totalPhysicalRAM : Nat) : Double :=
  if totalPhysicalRAM = 0 then 0
  else fmul (fdiv (ofU64 p.m_residentSize) (ofU64 totalPhysicalRAM)) 100

end ProcessInfo

/-! ## SystemMonitor (`SystemMonitor.h`, `SystemMonitor.cpp`) -/

/-- The page counters of `vm_statistics64_data_t` that the source reads. -/
structure VmStatistics64 where
  free_count : Nat
  active_count : Nat
  inactive_count : Nat
  wire_count : Nat
deriving DecidableEq, Repr

/-- Answers of the host during one collection cycle.
* `host_statistics64` is `some vm_stats` exactly when the call returns `KERN_SUCCESS`;
* `listallpids_count` is the value of `proc_listallpids(nullptr, 0)`;
* `listallpids_fill cap` is the value of the second `proc_listallpids` call on a buffer
  of `cap` entries, with the pids it wrote at the front of that buffer;
* `procSysAt i` holds the libproc answers while the `i`-th pid of the list is sampled. -/
structure Host where
  page_size : Nat
  host_statistics64 : Option VmStatistics64
  listallpids_count : Int
  listallpids_fill : Nat → Int × List Int
  procSysAt : Nat → ProcSys

/-- The signals of `SystemMonitor`. -/
inductive Signal where
  | dataReady
  | errorOccurred (error : String)
deriving DecidableEq, Repr

/-- Class `SystemMonitor` with its private members. -/
structure SystemMonitor where
  m_totalPhysicalRAM : Nat
  m_freeMemory : Nat
  m_activeMemory : Nat
  m_inactiveMemory : Nat
  m_wiredMemory : Nat
  m_processes : List ProcessInfo
deriving DecidableEq, Repr

/-- The comparison passed to `std::sort` in `collectAllProcesses`. -/
def residentGreater (a b : ProcessInfo) : Bool :=
  decide (a.getResidentSize > b.getResidentSize)

/-- Insertion of `x` into a list ordered by `comp`, behind the elements `y` for which
`comp x y` is false. -/
def sortInsert (comp : α → α → Bool) (x : α) : List α → List α
  | [] => [x]
  | y :: ys => if comp x y then x :: y :: ys else y :: sortInsert comp x ys

/-- The library call `std::sort(first, last, comp)`, as an insertion sort. The order of
elements that `comp` does not separate is left open by the standard; no statement below
depends on it. -/
def stdSort (comp : α → α → Bool) : List α → List α
  | [] => []
  | x :: xs => sortInsert comp x (stdSort comp xs)

/-- The call `std::vector<pid_t>::resize(n)`: truncation, or padding with zeros. -/
def vectorResize (v : List Int) (n : Nat) : List Int :=
  v.take n ++ List.replicate (n - v.length) 0

namespace SystemMonitor

def getTotalPhysicalRAM (m : SystemMonitor) : Nat := m.m_totalPhysicalRAM

def getFreeMemory (m : SystemMonitor) : Nat := m.m_freeMemory

def getActiveMemory (m : SystemMonitor) : Nat := m.m_activeMemory

def getInactiveMemory (m : SystemMonitor) : Nat := m.m_inactiveMemory

def getWiredMemory (m : SystemMonitor) : Nat := m.m_wiredMemory

def getProcesses (m : SystemMonitor) : List ProcessInfo := m.m_processes

/-- Method `SystemMonitor::collectSystemMemoryInfo`. -/
def collectSystemMemoryInfo (h : Host) (m : SystemMonitor) : Bool × SystemMonitor :=
  match h.host_statistics64 with
  | none => (false, m)
  | some vm_stats =>
    (true, { m with
      m_freeMemory := (vm_stats.free_count * h.page_size) % 2 ^ 64,
      m_activeMemory := (vm_stats.active_count * h.page_size) % 2 ^ 64,
      m_inactiveMemory := (vm_stats.inactive_count * h.page_size) % 2 ^ 64,
      m_wiredMemory := (vm_stats.wire_count * h.page_size) % 2 ^ 64 })

/-- The range-for loop of `collectAllProcesses`: `i` counts the pids already visited,
`acc` is `m_processes` so far. -/
def collectLoop (procSysAt : Nat → ProcSys) : Nat → List Int → List ProcessInfo →
    List ProcessInfo
  | _, [], acc => acc
  | i, pid :: rest, acc =>
    let procInfo := ProcessInfo.ofPid (procSysAt i) pid
    if procInfo.isValid then collectLoop procSysAt (i + 1) rest (acc ++ [procInfo])
    else collectLoop procSysAt (i + 1) rest acc

/-- Method `SystemMonitor::collectAllProcesses`. -/
def collectAllProcesses (h : Host) (m : SystemMonitor) : Bool × SystemMonitor :=
  let numProcs := h.listallpids_count
  if numProcs ≤ 0 then (false, m)
  else
    let cap := numProcs.toNat
    let fill := h.listallpids_fill cap
    let buffer := vectorResize (fill.2.take cap) cap
    let numProcs2 := fill.1
    if numProcs2 ≤ 0 then (false, m)
    else
      let pids := vectorResize buffer numProcs2.toNat
      let collected := collectLoop h.procSysAt 0 pids []
      (true, { m with m_processes := stdSort residentGreater collected })

/-- Slot `SystemMonitor::collectData`: the monitor after the call and the signal it
emits. -/
def collectData (h : Host) (m : SystemMonitor) : SystemMonitor × Signal :=
  let r1 := collectSystemMemoryInfo h m
  if !r1.1 then (r1.2, Signal.errorOccurred "Failed to collect system memory information")
  else
    let r2 := collectAllProcesses h r1.2
    if !r2.1 then (r2.2, Signal.errorOccurred "Failed to collect process information")
    else (r2.2, Signal.dataReady)

/-- Method `SystemMonitor::getUsedMemory`. -/
def getUsedMemory (m : SystemMonitor) : Nat :=
  (m.m_activeMemory + m.m_wiredMemory + m.m_inactiveMemory) % 2 ^ 64

/-- The counting loop of `getTopProcessesByMemory`: `i` runs over `0 .. numToReturn - 1`
and appends `m_processes[i]`. -/
def topLoop (procs : List ProcessInfo) (numToReturn : Nat) : List ProcessInfo :=
  (List.range numToReturn).foldl
    (fun topProcesses i =>
      match procs.get? i with
      | some p => topProcesses ++ [p]
      | none => topProcesses)
    []

/-- Method `SystemMonitor::getTopProcessesByMemory`. -/
def getTopProcessesByMemory (m : SystemMonitor) (count : Nat) : List ProcessInfo :=
  let numToReturn := min count m.m_processes.length
  topLoop m.m_processes numToReturn

/-- Constructor `SystemMonitor::SystemMonitor`: every member starts at zero and the
`sysctl` query of `HW_MEMSIZE` writes the total; `hw_memsize` is `some v` when the query
stores `v`, and `none` when it fails and leaves the member as it is. -/
def construct (hw_memsize : Option Nat) : SystemMonitor :=
  let m0 : SystemMonitor :=
    { m_totalPhysicalRAM := 0, m_freeMemory := 0, m_activeMemory := 0,
      m_inactiveMemory := 0, m_wiredMemory := 0, m_processes := [] }
  match hw_memsize with
  | some v => { m0 with m_totalPhysicalRAM := v % 2 ^ 64 }
  | none => m0

/-- The monitor after a sequence of `collectData` calls, one host answer per call. -/
def runCycles : List Host → SystemMonitor → SystemMonitor
  | [], m => m
  | h :: hs, m => runCycles hs (collectData h m).1

end SystemMonitor

/-! ## MainWindow (`MainWindow.cpp`): table, chart and breakdown figures

The text of an item (a formatted copy of its number) is left out; an item carries its
`Qt::UserRole` number and its colours. -/

/-- An RGB colour `QColor(r, g, b)`. -/
structure QColor where
  r : Nat
  g : Nat
  b : Nat
deriving DecidableEq, Repr

/-- A cell of the process table: `userRole` is `data(Qt::UserRole)` (`none` when no
number was stored). -/
structure QTableWidgetItem where
  userRole : Option Double
  background : Option QColor
  foreground : Option QColor
deriving DecidableEq, Repr

/-- The value of `data(Qt::UserRole).toDouble()`: zero when nothing is stored. -/
def QTableWidgetItem.toDouble (it : QTableWidgetItem) : Double := it.userRole.getD 0

/-- One row of the process table: the name and path texts, the number behind the
"RAM Usage" cell, and the cells of columns 3 and 4 (`none` for a null item). -/
structure TableRow where
  name : List Char
  path : List Char
  residentSize : Nat
  percentItem : Option QTableWidgetItem
  cumulativeItem : Option QTableWidgetItem
deriving DecidableEq, Repr

/-- The figures of the summary label of `showOthersBreakdown`. -/
structure OthersSummary where
  othersCount : Int
  othersMemory : Double
deriving DecidableEq, Repr

/-- The numbers shown by `updateStatusBar`, before formatting. -/
structure StatusFigures where
  totalRAM : Nat
  usedRAM : Nat
  freeRAM : Nat
  processCount : Nat
  activeRAM : Nat
  wiredRAM : Nat
  inactiveRAM : Nat
  processMemSum : Nat
deriving DecidableEq, Repr

namespace MainWindow

/-- The rows that the loop of `updateTable` stores, in the order of the process list. -/
def populateTable (m : SystemMonitor) : List TableRow :=
  let totalRAM := m.getTotalPhysicalRAM
  m.getProcesses.map fun proc =>
    let percentage := proc.getMemoryPercentage totalRAM
    { name := proc.getName,
      path := proc.getPath,
      residentSize := proc.getResidentSize,
      percentItem := some { userRole := some percentage, background := none,
                            foreground := none },
      cumulativeItem := some { userRole := none, background := none, foreground := none } }

/-- The background chosen for a cumulative percentage. -/
def cumulativeBackground (cumulativePercent : Double) : QColor :=
  if cumulativePercent > 75 then QColor.mk 255 180 180
  else if cumulativePercent > 50 then QColor.mk 255 255 180
  else if cumulativePercent > 25 then QColor.mk 180 255 180
  else QColor.mk 240 240 240

/-- The loop of `recalculateCumulativePercentage` over the rows in displayed order,
with the running `cumulativePercent`. -/
def recalcLoop : Double → List TableRow → List TableRow
  | _, [] => []
  | cumulativePercent, row :: rest =>
    match row.percentItem with
    | none => row :: recalcLoop cumulativePercent rest
    | some percentItem =>
      let percentage := percentItem.toDouble
      let cumulativePercent1 := fadd cumulativePercent percentage
      let row1 :=
        match row.cumulativeItem with
        | none => row
        | some cumulativeItem =>
          { row with cumulativeItem := some { cumulativeItem with
              userRole := some cumulativePercent1,
              background := some (cumulativeBackground cumulativePercent1),
              foreground := some (QColor.mk 0 0 0) } }
      row1 :: recalcLoop cumulativePercent1 rest

/-- Slot `MainWindow::recalculateCumulativePercentage` on the rows in displayed order. -/
def recalculateCumulativePercentage (rows : List TableRow) : List TableRow :=
  recalcLoop 0 rows

/-- Method `MainWindow::updateTable`; `viewSort` is the reordering of the rows done by
the table view when sorting is switched on. -/
def updateTable (viewSort : List TableRow → List TableRow) (m : SystemMonitor) :
    List TableRow :=
  recalculateCumulativePercentage (viewSort (populateTable m))

/-- The summary figures computed by `MainWindow::showOthersBreakdown`, for the value of
`m_chartProcessCount`. -/
def showOthersBreakdown (m : SystemMonitor) (m_chartProcessCount : Int) : OthersSummary :=
  let allProcesses := m.getProcesses
  let totalRAM := m.getTotalPhysicalRAM
  let othersCount :=
    toInt32 ((allProcesses.length + 2 ^ 64 - toSizeT m_chartProcessCount) % 2 ^ 64)
  let othersMemory :=
    (allProcesses.drop (toSizeT m_chartProcessCount)).foldl
      (fun acc proc => fadd acc (proc.getMemoryPercentage totalRAM)) 0
  { othersCount := othersCount, othersMemory := othersMemory }

/-- The loop of `updateStatusBar` that adds up the resident sizes in a `uint64_t`. -/
def processMemSumLoop : Nat → List ProcessInfo → Nat
  | processMemSum, [] => processMemSum
  | processMemSum, proc :: rest =>
    processMemSumLoop ((processMemSum + proc.getResidentSize) % 2 ^ 64) rest

/-- Method `MainWindow::updateStatusBar`: the numbers it puts into the status text. -/
def updateStatusBar (m : SystemMonitor) : StatusFigures :=
  let totalRAM := m.getTotalPhysicalRAM
  let activeRAM := m.getActiveMemory
  let wiredRAM := m.getWiredMemory
  let inactiveRAM := m.getInactiveMemory
  let freeRAM := m.getFreeMemory
  let usedRAM := (activeRAM + wiredRAM + inactiveRAM) % 2 ^ 64
  let processMemSum := processMemSumLoop 0 m.getProcesses
  { totalRAM := totalRAM, usedRAM := usedRAM, freeRAM := freeRAM,
    processCount := m.getProcesses.length, activeRAM := activeRAM, wiredRAM := wiredRAM,
    inactiveRAM := inactiveRAM, processMemSum := processMemSum }

end MainWindow

/-! ## Quantities the statements below refer to -/

/-- The percentage shown in a row: the number stored in its column 3 item. -/
def rowPercentage (row : TableRow) : Double :=
  match row.percentItem with
  | some percentItem => percentItem.toDouble
  | none => 0

/-- The number stored in the cumulative cell of a row, if there is one. -/
def cumulativeValue (row : TableRow) : Option Double :=
  row.cumulativeItem.bind fun cumulativeItem => cumulativeItem.userRole

/-- The sum of the percentages of the given rows, added from the first row on in
`double` arithmetic, starting from `0.0`. -/
def sumOfPercentages (rows : List TableRow) : Double :=
  rows.foldl (fun acc row => fadd acc (rowPercentage row)) 0

/-- The cumulative numbers of all rows that have one, in row order. -/
def cumulativeValues (rows : List TableRow) : List Double :=
  rows.filterMap cumulativeValue

/-- The pid vector that the loop of `collectAllProcesses` walks when both listing calls
report a positive count: the buffer of the second call, resized to its count. -/
def enumeratedPids (h : Host) : List Int :=
  let cap := h.listallpids_count.toNat
  let fill := h.listallpids_fill cap
  vectorResize (vectorResize (fill.2.take cap) cap) fill.1.toNat

/-- The sample built for each enumerated pid, in enumeration order, valid or not. -/
def enumeratedSamples (h : Host) : List ProcessInfo :=
  ((enumeratedPids h).enumFrom 0).map fun jp => ProcessInfo.ofPid (h.procSysAt jp.1) jp.2

/-- A row as `updateTable` stores it: both cells present, the percentage cell holding a
rounded, non-negative number. -/
def RowFilled (row : TableRow) : Prop :=
  (∃ v : Double, row.percentItem = some (QTableWidgetItem.mk (some v) none none) ∧
      0 ≤ v ∧ roundNE v = v) ∧
  ∃ item : QTableWidgetItem, row.cumulativeItem = some item

/-! ## Sample hosts and monitors -/

/-- A host that lists pids 7 and 9, with resident sizes 100 and 300. -/
def sortedHost : Host :=
  { page_size := 4096
    host_statistics64 := some { free_count := 1, active_count := 2, inactive_count := 3,
                                wire_count := 4 }
    listallpids_count := 2
    listallpids_fill := fun _ => (2, [7, 9])
    procSysAt := fun _ =>
      { proc_pidinfo := fun pid =>
          if pid = 7 then some { pti_virtual_size := 1000, pti_resident_size := 100 }
          else if pid = 9 then some { pti_virtual_size := 2000, pti_resident_size := 300 }
          else none
        proc_pidpath := fun _ => none
        proc_name := fun _ => none } }

/-- An empty monitor of a machine with 16 GB. -/
def emptyMonitor : SystemMonitor :=
  { m_totalPhysicalRAM := 16000000000, m_freeMemory := 0, m_activeMemory := 0,
    m_inactiveMemory := 0, m_wiredMemory := 0, m_processes := [] }

/-- A host that lists pid 0, a pid whose memory query fails (8) and two readable pids. -/
def mixedHost : Host :=
  { page_size := 4096
    host_statistics64 := none
    listallpids_count := 4
    listallpids_fill := fun _ => (4, [0, 7, 8, 9])
    procSysAt := fun _ =>
      { proc_pidinfo := fun pid =>
          if pid = 7 then some { pti_virtual_size := 1000, pti_resident_size := 100 }
          else if pid = 9 then some { pti_virtual_size := 2000, pti_resident_size := 300 }
          else none
        proc_pidpath := fun _ => some "/sbin/launchd".toList
        proc_name := fun _ => none } }

/-- A monitor holding three samples of 4, 2 and 1 GB on a machine with 16 GB. -/
def demoMonitor : SystemMonitor :=
  { m_totalPhysicalRAM := 16000000000, m_freeMemory := 0, m_activeMemory := 0,
    m_inactiveMemory := 0, m_wiredMemory := 0,
    m_processes :=
      [ { m_pid := 1, m_name := ['A'], m_path := [], m_residentSize := 4000000000,
          m_virtualSize := 0, m_valid := true },
        { m_pid := 2, m_name := ['B'], m_path := [], m_residentSize := 2000000000,
          m_virtualSize := 0, m_valid := true },
        { m_pid := 3, m_name := ['C'], m_path := [], m_residentSize := 1000000000,
          m_virtualSize := 0, m_valid := true } ] }

/-- A sample with a resident size of `2 ^ 53 + 1` bytes. -/
def hugeSample : ProcessInfo :=
  { m_pid := 1, m_name := ['A'], m_path := [], m_residentSize := 9007199254740993,
    m_virtualSize := 0, m_valid := true }

/-- A sample with a resident size of 32 GB. -/
def largeSample : ProcessInfo :=
  { m_pid := 1, m_name := ['A'], m_path := [], m_residentSize := 32000000000,
    m_virtualSize := 0, m_valid := true }

/-- A monitor of a machine with 1024 bytes of RAM and one sample of 1023 bytes. -/
def nearFullMonitor : SystemMonitor :=
  { m_totalPhysicalRAM := 1024, m_freeMemory := 0, m_activeMemory := 0,
    m_inactiveMemory := 0, m_wiredMemory := 0,
    m_processes :=
      [ { m_pid := 1, m_name := ['A'], m_path := [], m_residentSize := 1023,
          m_virtualSize := 0, m_valid := true } ] }

/-- A monitor with counters and three samples left by an earlier cycle. -/
def staleMonitor : SystemMonitor :=
  { m_totalPhysicalRAM := 16000000000, m_freeMemory := 111, m_activeMemory := 222,
    m_inactiveMemory := 333, m_wiredMemory := 444,
    m_processes := demoMonitor.m_processes }

/-- A host whose memory statistics succeed and whose process listing reports no pids. -/
def listingFailsHost : Host :=
  { page_size := 4096
    host_statistics64 := some { free_count := 10, active_count := 20, inactive_count := 30,
                                wire_count := 40 }
    listallpids_count := 0
    listallpids_fill := fun _ => (0, [])
    procSysAt := fun _ =>
      { proc_pidinfo := fun _ => none
        proc_pidpath := fun _ => none
        proc_name := fun _ => none } }

/-- A host that lists three pids, none of which can be read. -/
def unreadableHost : Host :=
  { page_size := 4096
    host_statistics64 := some { free_count := 10, active_count := 20, inactive_count := 30,
                                wire_count := 40 }
    listallpids_count := 3
    listallpids_fill := fun _ => (3, [5, 6, 7])
    procSysAt := fun _ =>
      { proc_pidinfo := fun _ => none
        proc_pidpath := fun _ => none
        proc_name := fun _ => none } }

/-- Answers of libproc for a process at `/usr/sbin/cfprefsd`. -/
def pathSys : ProcSys :=
  { proc_pidinfo := fun _ => some { pti_virtual_size := 2000, pti_resident_size := 300 }
    proc_pidpath := fun _ => some "/usr/sbin/cfprefsd".toList
    proc_name := fun _ => some "cfprefsd".toList }

/-- Answers of libproc for a process without a path and without a short name. -/
def namelessSys : ProcSys :=
  { proc_pidinfo := fun _ => some { pti_virtual_size := 2000, pti_resident_size := 300 }
    proc_pidpath := fun _ => none
    proc_name := fun _ => none }

/-- The table of the 16 GB example after a first recalculation, shown in the reverse
order, as after a click on a column header: its cumulative cells still hold the values
of the earlier order. -/
def resortedTable : List TableRow :=
  (MainWindow.recalculateCumulativePercentage (MainWindow.populateTable demoMonitor)).reverse

/-! ## Rounding to binary64: order and fixed points -/

theorem two_zpow_pos (k : ℤ) : (0 : ℚ) < 2 ^ k := zpow_pos (by norm_num) k

theorem two_zpow_lt_iff (j k : ℤ) : (2 : ℚ) ^ j < 2 ^ k ↔ j < k :=
  (zpow_right_strictMono₀ (by norm_num : (1 : ℚ) < 2)).lt_iff_lt

theorem two_zpow_le_iff (j k : ℤ) : (2 : ℚ) ^ j ≤ 2 ^ k ↔ j ≤ k :=
  (zpow_right_strictMono₀ (by norm_num : (1 : ℚ) < 2)).le_iff_le

theorem two_zpow_succ (k : ℤ) : (2 : ℚ) ^ (k + 1) = 2 ^ k * 2 :=
  zpow_add_one₀ (by norm_num) k

theorem log2Loop_spec (fuel n : Nat) (hf : n ≤ fuel) (hn : n ≠ 0) :
    2 ^ log2Loop fuel n ≤ n ∧ n < 2 ^ (log2Loop fuel n + 1) := by
  induction fuel generalizing n with
  | zero => omega
  | succ fuel ih =>
    unfold log2Loop
    split
    · constructor <;> simp <;> omega
    · obtain ⟨h1, h2⟩ := ih (n / 2) (by omega) (by omega)
      rw [pow_succ] at h2 ⊢
      rw [pow_succ _ (log2Loop fuel (n / 2) + 1), pow_succ]
      constructor <;> omega

theorem natLog2_spec (n : Nat) (hn : n ≠ 0) :
    2 ^ natLog2 n ≤ n ∧ n < 2 ^ (natLog2 n + 1) :=
  log2Loop_spec n n (le_refl n) hn

theorem ilog2_spec (a : ℚ) (ha : 0 < a) : (2 : ℚ) ^ ilog2 a ≤ a ∧ a < 2 ^ (ilog2 a + 1) := by
  have hnum : 0 < a.num := Rat.num_pos.2 ha
  have hP : a.num.natAbs ≠ 0 := by omega
  have hQ : a.den ≠ 0 := a.den_nz
  have hPl := (natLog2_spec _ hP).1
  have hPu := (natLog2_spec _ hP).2
  have hQl := (natLog2_spec _ hQ).1
  have hQu := (natLog2_spec _ hQ).2
  have hnumc : (a.num : ℚ) = (a.num.natAbs : ℚ) := by
    conv_lhs => rw [← Int.natAbs_of_nonneg hnum.le]
    exact Int.cast_natCast _
  have hDpos : (0 : ℚ) < a.den := by exact_mod_cast Nat.pos_of_ne_zero hQ
  have hPl2 : (2 : ℚ) ^ (natLog2 a.num.natAbs : ℤ) ≤ a.num.natAbs := by
    rw [zpow_natCast]; exact_mod_cast hPl
  have hPu2 : (a.num.natAbs : ℚ) < (2 : ℚ) ^ ((natLog2 a.num.natAbs : ℤ) + 1) := by
    have : (a.num.natAbs : ℚ) < (2 : ℚ) ^ (natLog2 a.num.natAbs + 1) := by exact_mod_cast hPu
    rw [← zpow_natCast] at this
    simpa using this
  have hQl2 : (2 : ℚ) ^ (natLog2 a.den : ℤ) ≤ a.den := by
    rw [zpow_natCast]; exact_mod_cast hQl
  have hQu2 : (a.den : ℚ) < (2 : ℚ) ^ ((natLog2 a.den : ℤ) + 1) := by
    have : (a.den : ℚ) < (2 : ℚ) ^ (natLog2 a.den + 1) := by exact_mod_cast hQu
    rw [← zpow_natCast] at this
    simpa using this
  have hmul : a * a.den = (a.num.natAbs : ℚ) := by
    rw [← hnumc]; exact Rat.mul_den_eq_num a
  have hupper : a < (2 : ℚ) ^ ((natLog2 a.num.natAbs : ℤ) - (natLog2 a.den : ℤ) + 1) := by
    have e : ((natLog2 a.num.natAbs : ℤ) - (natLog2 a.den : ℤ) + 1)
        = ((natLog2 a.num.natAbs : ℤ) + 1) - (natLog2 a.den : ℤ) := by ring
    rw [e, zpow_sub₀ (by norm_num : (2 : ℚ) ≠ 0), lt_div_iff₀ (two_zpow_pos _)]
    calc a * 2 ^ (natLog2 a.den : ℤ) ≤ a * a.den := by
          exact mul_le_mul_of_nonneg_left hQl2 ha.le
      _ = a.num.natAbs := hmul
      _ < _ := hPu2
  have hlower : (2 : ℚ) ^ ((natLog2 a.num.natAbs : ℤ) - (natLog2 a.den : ℤ) - 1) ≤ a := by
    have e : ((natLog2 a.num.natAbs : ℤ) - (natLog2 a.den : ℤ) - 1)
        = (natLog2 a.num.natAbs : ℤ) - ((natLog2 a.den : ℤ) + 1) := by ring
    rw [e, zpow_sub₀ (by norm_num : (2 : ℚ) ≠ 0), div_le_iff₀ (two_zpow_pos _)]
    calc (2 : ℚ) ^ (natLog2 a.num.natAbs : ℤ) ≤ a.num.natAbs := hPl2
      _ = a * a.den := hmul.symm
      _ ≤ a * 2 ^ ((natLog2 a.den : ℤ) + 1) := mul_le_mul_of_nonneg_left hQu2.le ha.le
  unfold ilog2
  dsimp only
  split
  next hc => exact ⟨hc, hupper⟩
  next hc =>
    refine ⟨hlower, ?_⟩
    rw [sub_add_cancel]
    exact lt_of_not_le hc

theorem ilog2_unique (a : ℚ) (k : ℤ) (hl : (2 : ℚ) ^ k ≤ a) (hu : a < 2 ^ (k + 1)) :
    ilog2 a = k := by
  have ha : 0 < a := lt_of_lt_of_le (two_zpow_pos k) hl
  obtain ⟨h1, h2⟩ := ilog2_spec a ha
  have h3 : k < ilog2 a + 1 := (two_zpow_lt_iff _ _).1 (lt_of_le_of_lt hl h2)
  have h4 : ilog2 a < k + 1 := (two_zpow_lt_iff _ _).1 (lt_of_le_of_lt h1 hu)
  omega

theorem rne_intCast (n : ℤ) : rne (n : ℚ) = n := by
  unfold rne
  simp

theorem floor_le_rne (m : ℚ) : ⌊m⌋ ≤ rne m := by
  unfold rne
  dsimp only
  split_ifs <;> omega

theorem rne_le_floor_succ (m : ℚ) : rne m ≤ ⌊m⌋ + 1 := by
  unfold rne
  dsimp only
  split_ifs <;> omega

theorem rne_mono (m n : ℚ) (h : m ≤ n) : rne m ≤ rne n := by
  have hf : ⌊m⌋ ≤ ⌊n⌋ := Int.floor_le_floor h
  rcases lt_or_eq_of_le hf with hlt | heq
  · calc rne m ≤ ⌊m⌋ + 1 := rne_le_floor_succ m
      _ ≤ ⌊n⌋ := hlt
      _ ≤ rne n := floor_le_rne n
  · unfold rne
    dsimp only
    rw [heq]
    have hmn : m - (⌊n⌋ : ℚ) ≤ n - (⌊n⌋ : ℚ) := by linarith
    split_ifs <;> first | omega | (exfalso; linarith)

theorem roundNE_of_pos (x : ℚ) (hx : 0 < x) :
    roundNE x = (rne (x / 2 ^ (ilog2 x - 52)) : ℚ) * 2 ^ (ilog2 x - 52) := by
  unfold roundNE
  rw [if_neg (ne_of_gt hx), if_pos hx]

theorem roundNE_zero : roundNE 0 = 0 := by
  unfold roundNE
  rw [if_pos rfl]

theorem roundNE_neg (x : ℚ) : roundNE (-x) = -roundNE x := by
  rcases lt_trichotomy x 0 with hx | hx | hx
  · have hnx : 0 < -x := by linarith
    rw [roundNE_of_pos (-x) hnx]
    unfold roundNE
    rw [if_neg (ne_of_lt hx), if_neg (not_lt.2 hx.le), neg_neg]
  · subst hx
    simp [roundNE_zero]
  · have hnx : -x < 0 := by linarith
    rw [roundNE_of_pos x hx]
    unfold roundNE
    rw [if_neg (ne_of_lt hnx), if_neg (not_lt.2 hnx.le), neg_neg]

theorem scaled_bounds (x : ℚ) (hx : 0 < x) :
    (2 : ℚ) ^ (52 : ℤ) ≤ x / 2 ^ (ilog2 x - 52) ∧ x / 2 ^ (ilog2 x - 52) < 2 ^ (53 : ℤ) := by
  obtain ⟨h1, h2⟩ := ilog2_spec x hx
  constructor
  · rw [le_div_iff₀ (two_zpow_pos _), ← zpow_add₀ (by norm_num : (2 : ℚ) ≠ 0)]
    have e : (52 : ℤ) + (ilog2 x - 52) = ilog2 x := by ring
    rw [e]; exact h1
  · rw [div_lt_iff₀ (two_zpow_pos _), ← zpow_add₀ (by norm_num : (2 : ℚ) ≠ 0)]
    have e : (53 : ℤ) + (ilog2 x - 52) = ilog2 x + 1 := by ring
    rw [e]; exact h2

theorem rne_scaled_bounds (x : ℚ) (hx : 0 < x) :
    (2 : ℤ) ^ 52 ≤ rne (x / 2 ^ (ilog2 x - 52)) ∧ rne (x / 2 ^ (ilog2 x - 52)) ≤ 2 ^ 53 := by
  obtain ⟨h1, h2⟩ := scaled_bounds x hx
  constructor
  · have h := rne_mono _ _ (show (((2 : ℤ) ^ 52 : ℤ) : ℚ) ≤ x / 2 ^ (ilog2 x - 52) by
      push_cast; exact_mod_cast h1)
    rwa [rne_intCast] at h
  · have h := rne_mono _ _ (show x / 2 ^ (ilog2 x - 52) ≤ (((2 : ℤ) ^ 53 : ℤ) : ℚ) by
      push_cast; exact_mod_cast h2.le)
    rwa [rne_intCast] at h

theorem roundNE_pos_bounds (x : ℚ) (hx : 0 < x) :
    (2 : ℚ) ^ ilog2 x ≤ roundNE x ∧ roundNE x ≤ 2 ^ (ilog2 x + 1) := by
  obtain ⟨h1, h2⟩ := rne_scaled_bounds x hx
  rw [roundNE_of_pos x hx]
  have hs := two_zpow_pos (ilog2 x - 52)
  constructor
  · have e : (2 : ℚ) ^ ilog2 x = 2 ^ (52 : ℤ) * 2 ^ (ilog2 x - 52) := by
      rw [← zpow_add₀ (by norm_num : (2 : ℚ) ≠ 0)]; congr 1; ring
    rw [e]
    apply mul_le_mul_of_nonneg_right _ hs.le
    exact_mod_cast h1
  · have e : (2 : ℚ) ^ (ilog2 x + 1) = 2 ^ (53 : ℤ) * 2 ^ (ilog2 x - 52) := by
      rw [← zpow_add₀ (by norm_num : (2 : ℚ) ≠ 0)]; congr 1; ring
    rw [e]
    apply mul_le_mul_of_nonneg_right _ hs.le
    exact_mod_cast h2

theorem roundNE_pos (x : ℚ) (hx : 0 < x) : 0 < roundNE x :=
  lt_of_lt_of_le (two_zpow_pos _) (roundNE_pos_bounds x hx).1

theorem ilog2_mono (x y : ℚ) (hx : 0 < x) (hxy : x ≤ y) : ilog2 x ≤ ilog2 y := by
  have h1 := (ilog2_spec x hx).1
  have h2 := (ilog2_spec y (lt_of_lt_of_le hx hxy)).2
  have := (two_zpow_lt_iff _ _).1 (lt_of_le_of_lt (le_trans h1 hxy) h2)
  omega

theorem roundNE_mono_pos (x y : ℚ) (hx : 0 < x) (hxy : x ≤ y) : roundNE x ≤ roundNE y := by
  have hy : 0 < y := lt_of_lt_of_le hx hxy
  rcases lt_or_eq_of_le (ilog2_mono x y hx hxy) with hlt | heq
  · calc roundNE x ≤ 2 ^ (ilog2 x + 1) := (roundNE_pos_bounds x hx).2
      _ ≤ 2 ^ ilog2 y := (two_zpow_le_iff _ _).2 (by omega)
      _ ≤ roundNE y := (roundNE_pos_bounds y hy).1
  · rw [roundNE_of_pos x hx, roundNE_of_pos y hy, heq]
    have hs := two_zpow_pos (ilog2 y - 52)
    apply mul_le_mul_of_nonneg_right _ hs.le
    have : rne (x / 2 ^ (ilog2 y - 52)) ≤ rne (y / 2 ^ (ilog2 y - 52)) :=
      rne_mono _ _ (div_le_div_of_nonneg_right hxy hs.le)
    exact_mod_cast this

theorem roundNE_mono (x y : ℚ) (hxy : x ≤ y) : roundNE x ≤ roundNE y := by
  rcases lt_trichotomy x 0 with hx | hx | hx
  · rcases lt_trichotomy y 0 with hy | hy | hy
    · have h := roundNE_mono_pos (-y) (-x) (by linarith) (by linarith)
      rw [roundNE_neg, roundNE_neg] at h
      linarith
    · subst hy
      have h := roundNE_pos (-x) (by linarith)
      rw [roundNE_neg] at h
      rw [roundNE_zero]; linarith
    · have h := roundNE_pos (-x) (by linarith)
      rw [roundNE_neg] at h
      have h2 := roundNE_pos y hy
      linarith
  · subst hx
    rcases eq_or_lt_of_le hxy with hy | hy
    · rw [← hy]
    · rw [roundNE_zero]; exact (roundNE_pos y hy).le
  · exact roundNE_mono_pos x y hx hxy

theorem roundNE_dyadic (m : ℕ) (k : ℤ) (hm : m < 2 ^ 53) :
    roundNE ((m : ℚ) * 2 ^ k) = (m : ℚ) * 2 ^ k := by
  rcases Nat.eq_zero_or_pos m with h0 | hpos
  · subst h0; simp [roundNE_zero]
  · have hk := two_zpow_pos k
    have hx : (0 : ℚ) < (m : ℚ) * 2 ^ k := mul_pos (by exact_mod_cast hpos) hk
    obtain ⟨h1, h2⟩ := ilog2_spec _ hx
    have hlt : (m : ℚ) * 2 ^ k < 2 ^ (53 + k) := by
      rw [zpow_add₀ (by norm_num : (2 : ℚ) ≠ 0)]
      apply mul_lt_mul_of_pos_right _ hk
      exact_mod_cast hm
    have he : ilog2 ((m : ℚ) * 2 ^ k) < 53 + k :=
      (two_zpow_lt_iff _ _).1 (lt_of_le_of_lt h1 hlt)
    rw [roundNE_of_pos _ hx]
    generalize ilog2 ((m : ℚ) * 2 ^ k) = e at he
    obtain ⟨d, hd⟩ : ∃ d : ℕ, k - (e - 52) = (d : ℤ) := ⟨(k - (e - 52)).toNat, by omega⟩
    have hdiv : (m : ℚ) * 2 ^ k / 2 ^ (e - 52) = (((m * 2 ^ d : ℕ) : ℤ) : ℚ) := by
      rw [mul_div_assoc, ← zpow_sub₀ (by norm_num : (2 : ℚ) ≠ 0), hd, zpow_natCast]
      push_cast; ring
    rw [hdiv, rne_intCast]
    push_cast
    rw [mul_assoc, ← zpow_natCast, ← hd, ← zpow_add₀ (by norm_num : (2 : ℚ) ≠ 0)]
    congr 2; ring

theorem roundNE_idem (x : ℚ) : roundNE (roundNE x) = roundNE x := by
  have key : ∀ y : ℚ, 0 < y → roundNE (roundNE y) = roundNE y := by
    intro y hy
    obtain ⟨h1, h2⟩ := rne_scaled_bounds y hy
    rw [roundNE_of_pos y hy]
    generalize rne (y / 2 ^ (ilog2 y - 52)) = n at h1 h2
    obtain ⟨N, hN⟩ : ∃ N : ℕ, n = (N : ℤ) := ⟨n.toNat, by omega⟩
    subst hN
    rcases lt_or_eq_of_le h2 with hlt | heq
    · have := roundNE_dyadic N (ilog2 y - 52) (by exact_mod_cast hlt)
      simpa using this
    · have hN : N = 2 ^ 53 := by exact_mod_cast heq
      subst hN
      have e : ((((2 : ℕ) ^ 53 : ℕ) : ℤ) : ℚ) * 2 ^ (ilog2 y - 52) =
          ((1 : ℕ) : ℚ) * 2 ^ (53 + (ilog2 y - 52)) := by
        rw [zpow_add₀ (by norm_num : (2 : ℚ) ≠ 0)]; norm_num
      rw [e]; exact roundNE_dyadic 1 _ (by norm_num)
  rcases lt_trichotomy x 0 with hx | hx | hx
  · have h := key (-x) (by linarith)
    rw [roundNE_neg, roundNE_neg] at h
    linarith
  · subst hx; simp [roundNE_zero]
  · exact key x hx

theorem roundNE_natCast (n : ℕ) (hn : n ≤ 2 ^ 53) : roundNE (n : ℚ) = n := by
  rcases lt_or_eq_of_le hn with hlt | heq
  · have := roundNE_dyadic n 0 hlt
    simpa using this
  · subst heq
    have e : (((2 : ℕ) ^ 53 : ℕ) : ℚ) = ((1 : ℕ) : ℚ) * 2 ^ (53 : ℤ) := by norm_num
    rw [e]; exact roundNE_dyadic 1 53 (by norm_num)

/-! The rounding is a correct one: the result has a 53-bit significand, lies within half
a unit in the last place of the exact value, and a tie goes to the even significand. -/

theorem rne_half_even (f : ℤ) : rne ((f : ℚ) + 1 / 2) % 2 = 0 := by
  have hfl : ⌊(f : ℚ) + 1 / 2⌋ = f := by
    rw [Int.floor_eq_iff]
    constructor <;> linarith
  unfold rne
  dsimp only
  rw [hfl]
  have e : (f : ℚ) + 1 / 2 - (f : ℚ) = 1 / 2 := by ring
  rw [e, if_neg (lt_irrefl _), if_neg (lt_irrefl _)]
  split_ifs <;> omega

theorem roundNE_significand (x : ℚ) (hx : 0 < x) :
    ∃ n : ℤ, 2 ^ 52 ≤ n ∧ n ≤ 2 ^ 53 ∧ roundNE x = (n : ℚ) * 2 ^ (ilog2 x - 52) :=
  ⟨rne (x / 2 ^ (ilog2 x - 52)), (rne_scaled_bounds x hx).1, (rne_scaled_bounds x hx).2,
    roundNE_of_pos x hx⟩

theorem rne_abs_sub_le (m : ℚ) : |(rne m : ℚ) - m| ≤ 1 / 2 := by
  have h1 := Int.floor_le m
  have h2 := Int.lt_floor_add_one m
  unfold rne
  dsimp only
  rw [abs_le]
  split_ifs with ha hb hc
  · constructor <;> linarith
  · push_cast; constructor <;> linarith
  · constructor <;> linarith
  · push_cast; constructor <;> linarith

theorem roundNE_abs_sub_le (x : ℚ) (hx : 0 < x) :
    |roundNE x - x| ≤ 2 ^ (ilog2 x - 53) := by
  have hs := two_zpow_pos (ilog2 x - 52)
  have h := rne_abs_sub_le (x / 2 ^ (ilog2 x - 52))
  rw [roundNE_of_pos x hx]
  have e1 : (rne (x / 2 ^ (ilog2 x - 52)) : ℚ) * 2 ^ (ilog2 x - 52) - x =
      ((rne (x / 2 ^ (ilog2 x - 52)) : ℚ) - x / 2 ^ (ilog2 x - 52)) * 2 ^ (ilog2 x - 52) := by
    field_simp
  have e2 : (2 : ℚ) ^ (ilog2 x - 53) = 1 / 2 * 2 ^ (ilog2 x - 52) := by
    have : ilog2 x - 52 = (ilog2 x - 53) + 1 := by ring
    rw [this, two_zpow_succ]; ring
  rw [e1, abs_mul, abs_of_pos hs, e2]
  exact mul_le_mul_of_nonneg_right h hs.le

/-! ## Sorting and the enumeration loop -/

theorem sortInsert_perm (comp : α → α → Bool) (x : α) (l : List α) :
    (sortInsert comp x l).Perm (x :: l) := by
  induction l with
  | nil => simp [sortInsert]
  | cons y ys ih =>
    unfold sortInsert
    split
    · exact List.Perm.refl _
    · exact (List.Perm.cons y ih).trans (List.Perm.swap x y ys)

theorem stdSort_perm (comp : α → α → Bool) (l : List α) : (stdSort comp l).Perm l := by
  induction l with
  | nil => simp [stdSort]
  | cons x xs ih =>
    unfold stdSort
    exact (sortInsert_perm comp x _).trans (List.Perm.cons x ih)

theorem sortInsert_residentGreater_pairwise (x : ProcessInfo) (l : List ProcessInfo)
    (hl : l.Pairwise (fun a b => b.m_residentSize ≤ a.m_residentSize)) :
    (sortInsert residentGreater x l).Pairwise
      (fun a b => b.m_residentSize ≤ a.m_residentSize) := by
  induction l with
  | nil => simp [sortInsert]
  | cons y ys ih =>
    rw [List.pairwise_cons] at hl
    unfold sortInsert
    split
    next hc =>
      have hxy : y.m_residentSize < x.m_residentSize := by
        simpa [residentGreater, ProcessInfo.getResidentSize] using hc
      refine List.Pairwise.cons ?_ (List.Pairwise.cons hl.1 hl.2)
      intro z hz
      rcases List.mem_cons.1 hz with rfl | hz
      · exact Nat.le_of_lt hxy
      · exact Nat.le_trans (hl.1 z hz) (Nat.le_of_lt hxy)
    next hc =>
      have hxy : x.m_residentSize ≤ y.m_residentSize := by
        simpa [residentGreater, ProcessInfo.getResidentSize] using hc
      refine List.Pairwise.cons ?_ (ih hl.2)
      intro z hz
      rcases List.mem_cons.1 ((sortInsert_perm residentGreater x ys).mem_iff.1 hz) with rfl | hz
      · exact hxy
      · exact hl.1 z hz

theorem stdSort_residentGreater_pairwise (l : List ProcessInfo) :
    (stdSort residentGreater l).Pairwise
      (fun a b => b.m_residentSize ≤ a.m_residentSize) := by
  induction l with
  | nil => simp [stdSort]
  | cons x xs ih =>
    unfold stdSort
    exact sortInsert_residentGreater_pairwise x _ ih

theorem collectLoop_eq (procSysAt : Nat → ProcSys) (pids : List Int) (i : Nat)
    (acc : List ProcessInfo) :
    SystemMonitor.collectLoop procSysAt i pids acc =
      acc ++ ((pids.enumFrom i).map
        (fun jp => ProcessInfo.ofPid (procSysAt jp.1) jp.2)).filter ProcessInfo.isValid := by
  induction pids generalizing i acc with
  | nil => simp [SystemMonitor.collectLoop]
  | cons pid rest ih =>
    simp only [SystemMonitor.collectLoop, List.enumFrom_cons, List.map_cons]
    by_cases hv : (ProcessInfo.ofPid (procSysAt i) pid).isValid = true
    · simp [hv, ih, List.filter_cons]
    · simp [hv, ih, List.filter_cons]

theorem collectProcessInfo_pid (sys : ProcSys) (p : ProcessInfo) :
    (ProcessInfo.collectProcessInfo sys p).2.m_pid = p.m_pid := by
  unfold ProcessInfo.collectProcessInfo
  split
  · rfl
  · dsimp only
    split
    · split <;> rfl
    · split <;> rfl

theorem collectProcessInfo_valid (sys : ProcSys) (p : ProcessInfo) :
    (ProcessInfo.collectProcessInfo sys p).2.m_valid = (sys.proc_pidinfo p.m_pid).isSome := by
  unfold ProcessInfo.collectProcessInfo
  split
  next hq => simp [hq]
  next ti hq => simp [hq]

theorem ofPid_pid (sys : ProcSys) (pid : Int) : (ProcessInfo.ofPid sys pid).m_pid = pid := by
  unfold ProcessInfo.ofPid ProcessInfo.update
  split
  · rfl
  · exact collectProcessInfo_pid sys _

theorem ofPid_valid (sys : ProcSys) (pid : Int)
    (hv : (ProcessInfo.ofPid sys pid).isValid = true) :
    0 < pid ∧ (sys.proc_pidinfo pid).isSome = true := by
  unfold ProcessInfo.ofPid ProcessInfo.update ProcessInfo.isValid at hv
  by_cases hp : pid ≤ 0
  · simp [hp] at hv
  · simp only [hp, if_false] at hv
    rw [collectProcessInfo_valid] at hv
    exact ⟨by omega, hv⟩

theorem collectAllProcesses_success (h : Host) (m : SystemMonitor)
    (hs : (SystemMonitor.collectAllProcesses h m).1 = true) :
    ∃ pids : List Int, (SystemMonitor.collectAllProcesses h m).2.m_processes =
      stdSort residentGreater (SystemMonitor.collectLoop h.procSysAt 0 pids []) := by
  unfold SystemMonitor.collectAllProcesses at *
  by_cases h1 : h.listallpids_count ≤ 0
  · simp [h1] at hs
  · by_cases h2 : (h.listallpids_fill h.listallpids_count.toNat).1 ≤ 0
    · simp [h1, h2] at hs
    · simp only [h1, h2, if_false]
      exact ⟨_, rfl⟩

theorem topLoop_eq_take (procs : List ProcessInfo) (n : Nat) (hn : n ≤ procs.length) :
    SystemMonitor.topLoop procs n = procs.take n := by
  unfold SystemMonitor.topLoop
  induction n with
  | zero => simp
  | succ k ih =>
    have hk : k < procs.length := by omega
    rw [List.range_succ, List.foldl_append, ih (by omega)]
    rw [List.take_succ, List.foldl_cons, List.foldl_nil, List.get?_eq_getElem?,
      List.getElem?_eq_getElem hk]
    rfl

/-! ## Claims C1 to C3 and C10 -/

/-- C1: after a successful `collectAllProcesses`, whatever the host returned, the stored
process list is in non-increasing order of resident size: each entry is at least as
large as the next one. -/
theorem collectAllProcesses_sorted (h : Host) (m : SystemMonitor)
    (hs : (SystemMonitor.collectAllProcesses h m).1 = true) (i : Nat)
    (hi : i + 1 < (SystemMonitor.collectAllProcesses h m).2.getProcesses.length) :
    ((SystemMonitor.collectAllProcesses h m).2.getProcesses.get ⟨i + 1, hi⟩).getResidentSize ≤
      ((SystemMonitor.collectAllProcesses h m).2.getProcesses.get
        ⟨i, Nat.lt_of_succ_lt hi⟩).getResidentSize := by
  obtain ⟨pids, hp⟩ := collectAllProcesses_success h m hs
  have hsorted := stdSort_residentGreater_pairwise (SystemMonitor.collectLoop h.procSysAt 0 pids [])
  rw [← hp] at hsorted
  exact List.pairwise_iff_get.1 hsorted ⟨i, Nat.lt_of_succ_lt hi⟩ ⟨i + 1, hi⟩ (by simp)

theorem collectAllProcesses_sorted_witness :
    ∃ hi : 0 + 1 < (SystemMonitor.collectAllProcesses sortedHost emptyMonitor).2.getProcesses.length,
      ((SystemMonitor.collectAllProcesses sortedHost emptyMonitor).2.getProcesses.get
          ⟨0 + 1, hi⟩).getResidentSize ≤
        ((SystemMonitor.collectAllProcesses sortedHost emptyMonitor).2.getProcesses.get
          ⟨0, Nat.lt_of_succ_lt hi⟩).getResidentSize :=
  ⟨by decide, collectAllProcesses_sorted sortedHost emptyMonitor (by decide) 0 (by decide)⟩

/-- C2: after a successful `collectAllProcesses`, every stored entry is valid, has a
positive pid, and was built from a per-process memory query that succeeded; so a sample
whose query failed, or whose pid is not positive, is not in the list. -/
theorem collectAllProcesses_all_valid (h : Host) (m : SystemMonitor)
    (hs : (SystemMonitor.collectAllProcesses h m).1 = true) (p : ProcessInfo)
    (hp : p ∈ (SystemMonitor.collectAllProcesses h m).2.getProcesses) :
    p.isValid = true ∧ 0 < p.getPid ∧
      ∃ i : Nat, p = ProcessInfo.ofPid (h.procSysAt i) p.getPid ∧
        ((h.procSysAt i).proc_pidinfo p.getPid).isSome = true := by
  obtain ⟨pids, hpids⟩ := collectAllProcesses_success h m hs
  unfold SystemMonitor.getProcesses at hp
  rw [hpids] at hp
  have hmem := (stdSort_perm residentGreater _).mem_iff.1 hp
  rw [collectLoop_eq, List.nil_append, List.mem_filter, List.mem_map] at hmem
  obtain ⟨⟨jp, -, hjp⟩, hvalid⟩ := hmem
  have hpid : p.m_pid = jp.2 := by rw [← hjp]; exact ofPid_pid _ _
  have hv := ofPid_valid (h.procSysAt jp.1) jp.2 (by rw [hjp]; exact hvalid)
  refine ⟨hvalid, ?_, jp.1, ?_, ?_⟩
  · unfold ProcessInfo.getPid; rw [hpid]; exact hv.1
  · unfold ProcessInfo.getPid; rw [hpid]; exact hjp.symm
  · unfold ProcessInfo.getPid; rw [hpid]; exact hv.2

theorem collectAllProcesses_all_valid_witness :
    (SystemMonitor.collectAllProcesses mixedHost emptyMonitor).2.getProcesses.length = 2 ∧
    ∀ p ∈ (SystemMonitor.collectAllProcesses mixedHost emptyMonitor).2.getProcesses,
      p.isValid = true ∧ 0 < p.getPid ∧
        ∃ i : Nat, p = ProcessInfo.ofPid (mixedHost.procSysAt i) p.getPid ∧
          ((mixedHost.procSysAt i).proc_pidinfo p.getPid).isSome = true :=
  ⟨by decide, fun p hp => collectAllProcesses_all_valid mixedHost emptyMonitor (by decide) p hp⟩

/-- C3: `getTopProcessesByMemory n` is the list of the first `min n length` stored
entries, in the stored order; its length is `min n length`, it is the whole list when
`n` is at least the length, and it is empty when `n = 0` or the list is empty. -/
theorem getTopProcessesByMemory_eq_take (m : SystemMonitor) (n : Nat) :
    m.getTopProcessesByMemory n = m.getProcesses.take (min n m.getProcesses.length) ∧
    (m.getTopProcessesByMemory n).length = min n m.getProcesses.length ∧
    (m.getProcesses.length ≤ n → m.getTopProcessesByMemory n = m.getProcesses) ∧
    (n = 0 ∨ m.getProcesses = [] → m.getTopProcessesByMemory n = []) := by
  have h1 : m.getTopProcessesByMemory n = m.getProcesses.take (min n m.getProcesses.length) :=
    topLoop_eq_take m.m_processes _ (Nat.min_le_right _ _)
  refine ⟨h1, ?_, ?_, ?_⟩
  · rw [h1, List.length_take]; omega
  · intro hn
    rw [h1, Nat.min_eq_right hn, List.take_length]
  · rintro (h0 | h0)
    · rw [h1, h0]; simp
    · rw [h1, h0]; simp

theorem getTopProcessesByMemory_eq_take_witness :
    demoMonitor.getTopProcessesByMemory 5 = demoMonitor.getProcesses ∧
    demoMonitor.getTopProcessesByMemory 0 = [] ∧
    (demoMonitor.getTopProcessesByMemory 2).length = 2 :=
  ⟨(getTopProcessesByMemory_eq_take demoMonitor 5).2.2.1 (by decide),
   (getTopProcessesByMemory_eq_take demoMonitor 0).2.2.2 (Or.inl rfl),
   by decide⟩

/-- C10: when the memory statistics query fails, `collectData` returns the monitor it
was given, with every counter, the total RAM and the process list untouched, and the
signal it emits is the error of the counters, not `dataReady`. -/
theorem collectData_counters_failure (h : Host) (m : SystemMonitor)
    (hf : h.host_statistics64 = none) :
    (SystemMonitor.collectData h m).1 = m ∧
    (SystemMonitor.collectData h m).2 =
      Signal.errorOccurred "Failed to collect system memory information" ∧
    (SystemMonitor.collectData h m).2 ≠ Signal.dataReady := by
  have h1 : SystemMonitor.collectSystemMemoryInfo h m = (false, m) := by
    unfold SystemMonitor.collectSystemMemoryInfo
    rw [hf]
  have h2 : SystemMonitor.collectData h m =
      (m, Signal.errorOccurred "Failed to collect system memory information") := by
    unfold SystemMonitor.collectData
    simp [h1]
  rw [h2]
  exact ⟨rfl, rfl, by simp⟩

theorem collectData_counters_failure_witness :
    mixedHost.host_statistics64 = none ∧
    (SystemMonitor.collectData mixedHost demoMonitor).1 = demoMonitor ∧
    (SystemMonitor.collectData mixedHost demoMonitor).2 =
      Signal.errorOccurred "Failed to collect system memory information" ∧
    (SystemMonitor.collectData mixedHost demoMonitor).2 ≠ Signal.dataReady :=
  ⟨rfl, collectData_counters_failure mixedHost demoMonitor rfl⟩

/-! ## Percentages -/

theorem one_le_ofU64 (t : Nat) (ht : 0 < t) : 1 ≤ ofU64 t := by
  have h1 : roundNE ((1 : ℕ) : ℚ) = ((1 : ℕ) : ℚ) := roundNE_natCast 1 (by norm_num)
  have h2 : roundNE ((1 : ℕ) : ℚ) ≤ roundNE (t : ℚ) :=
    roundNE_mono _ _ (by exact_mod_cast ht)
  unfold ofU64
  rw [h1] at h2
  simpa using h2

theorem ofU64_nonneg (r : Nat) : 0 ≤ ofU64 r := by
  have h := roundNE_mono 0 (r : ℚ) (by positivity)
  rwa [roundNE_zero] at h

theorem getMemoryPercentage_nonneg (p : ProcessInfo) (t : Nat) :
    0 ≤ p.getMemoryPercentage t := by
  unfold ProcessInfo.getMemoryPercentage
  split
  · exact le_refl _
  next ht =>
    have hb : 0 < ofU64 t := lt_of_lt_of_le one_pos (one_le_ofU64 t (Nat.pos_of_ne_zero ht))
    have ha := ofU64_nonneg p.m_residentSize
    have hq : 0 ≤ fdiv (ofU64 p.m_residentSize) (ofU64 t) := by
      have h := roundNE_mono 0 (ofU64 p.m_residentSize / ofU64 t) (div_nonneg ha hb.le)
      rwa [roundNE_zero] at h
    have h := roundNE_mono 0 (fdiv (ofU64 p.m_residentSize) (ofU64 t) * 100)
      (mul_nonneg hq (by norm_num))
    rwa [roundNE_zero] at h

theorem getMemoryPercentage_rounded (p : ProcessInfo) (t : Nat) :
    roundNE (p.getMemoryPercentage t) = p.getMemoryPercentage t := by
  unfold ProcessInfo.getMemoryPercentage
  split
  · exact roundNE_zero
  · exact roundNE_idem _

theorem hundred_le_getMemoryPercentage (p : ProcessInfo) (t : Nat) (ht : 0 < t)
    (hr : t < p.m_residentSize) : 100 ≤ p.getMemoryPercentage t := by
  unfold ProcessInfo.getMemoryPercentage
  rw [if_neg (Nat.pos_iff_ne_zero.1 ht)]
  have hb : 0 < ofU64 t := lt_of_lt_of_le one_pos (one_le_ofU64 t ht)
  have hab : ofU64 t ≤ ofU64 p.m_residentSize :=
    roundNE_mono _ _ (by exact_mod_cast hr.le)
  have hq : 1 ≤ fdiv (ofU64 p.m_residentSize) (ofU64 t) := by
    have h := roundNE_mono 1 (ofU64 p.m_residentSize / ofU64 t) ((one_le_div hb).2 hab)
    have h1 : roundNE 1 = 1 := by
      have := roundNE_natCast 1 (by norm_num)
      simpa using this
    rwa [h1] at h
  have h := roundNE_mono 100 (fdiv (ofU64 p.m_residentSize) (ofU64 t) * 100) (by linarith)
  have h100 : roundNE 100 = 100 := by
    have := roundNE_natCast 100 (by norm_num)
    simpa using this
  rwa [h100] at h

theorem hundred_lt_getMemoryPercentage (p : ProcessInfo) (t : Nat) (ht : 0 < t)
    (hr : t < p.m_residentSize) (hsmall : t ≤ 2 ^ 52) : 100 < p.getMemoryPercentage t := by
  unfold ProcessInfo.getMemoryPercentage
  rw [if_neg (Nat.pos_iff_ne_zero.1 ht)]
  have htq : (0 : ℚ) < (t : ℚ) := by exact_mod_cast ht
  have hb : ofU64 t = (t : ℚ) := roundNE_natCast t (by omega)
  have ha : ((t + 1 : ℕ) : ℚ) ≤ ofU64 p.m_residentSize := by
    have h := roundNE_mono ((t + 1 : ℕ) : ℚ) (p.m_residentSize : ℚ) (by exact_mod_cast hr)
    rwa [roundNE_natCast (t + 1) (by omega)] at h
  have hstep : (((2 ^ 52 + 1 : ℕ) : ℚ)) * 2 ^ (-52 : ℤ) ≤ ofU64 p.m_residentSize / ofU64 t := by
    rw [hb, le_div_iff₀ htq]
    have ht52 : (t : ℚ) ≤ 2 ^ 52 := by exact_mod_cast hsmall
    have e : (((2 ^ 52 + 1 : ℕ) : ℚ)) * 2 ^ (-52 : ℤ) = 1 + 1 / 2 ^ 52 := by norm_num
    rw [e]
    have : (1 + 1 / 2 ^ 52) * (t : ℚ) ≤ (t : ℚ) + 1 := by
      have : (t : ℚ) / 2 ^ 52 ≤ 1 := (div_le_one (by positivity)).2 ht52
      linarith [this]
    calc (1 + 1 / 2 ^ 52) * (t : ℚ) ≤ (t : ℚ) + 1 := this
      _ ≤ ofU64 p.m_residentSize := by exact_mod_cast ha
  have hq : (((2 ^ 52 + 1 : ℕ) : ℚ)) * 2 ^ (-52 : ℤ) ≤
      fdiv (ofU64 p.m_residentSize) (ofU64 t) := by
    have h := roundNE_mono _ _ hstep
    rwa [roundNE_dyadic (2 ^ 52 + 1) (-52) (by norm_num)] at h
  have hprod : (((100 * 2 ^ 46 + 1 : ℕ) : ℚ)) * 2 ^ (-46 : ℤ) ≤
      fdiv (ofU64 p.m_residentSize) (ofU64 t) * 100 := by
    have e : (((100 * 2 ^ 46 + 1 : ℕ) : ℚ)) * 2 ^ (-46 : ℤ) ≤
        (((2 ^ 52 + 1 : ℕ) : ℚ)) * 2 ^ (-52 : ℤ) * 100 := by norm_num
    linarith
  have h := roundNE_mono _ _ hprod
  rw [roundNE_dyadic (100 * 2 ^ 46 + 1) (-46) (by norm_num)] at h
  have e : (100 : ℚ) < (((100 * 2 ^ 46 + 1 : ℕ) : ℚ)) * 2 ^ (-46 : ℤ) := by norm_num
  exact lt_of_lt_of_le e h

/-! ## Claims C4 and C5 -/

/-- C4 (amended): for a total RAM `t > 0` the value of `getMemoryPercentage t` is the
`double` computation `(double(r) / double(t)) * 100.0` on the resident size `r`, it is
the same for any two samples with the same resident size, and nothing clamps it: when
`r > t` it is at least 100, and it is strictly greater than 100 whenever `t ≤ 2 ^ 52`. -/
theorem getMemoryPercentage_unclamped (p q : ProcessInfo) (t : Nat) (ht : 0 < t) :
    p.getMemoryPercentage t = fmul (fdiv (ofU64 p.getResidentSize) (ofU64 t)) 100 ∧
    (q.getResidentSize = p.getResidentSize →
      q.getMemoryPercentage t = p.getMemoryPercentage t) ∧
    (t < p.getResidentSize → 100 ≤ p.getMemoryPercentage t) ∧
    (t < p.getResidentSize → t ≤ 2 ^ 52 → 100 < p.getMemoryPercentage t) := by
  refine ⟨?_, ?_, ?_, ?_⟩
  · unfold ProcessInfo.getMemoryPercentage ProcessInfo.getResidentSize
    rw [if_neg (Nat.pos_iff_ne_zero.1 ht)]
  · intro hq
    unfold ProcessInfo.getResidentSize at hq
    unfold ProcessInfo.getMemoryPercentage
    rw [hq]
  · exact fun hr => hundred_le_getMemoryPercentage p t ht hr
  · exact fun hr hsmall => hundred_lt_getMemoryPercentage p t ht hr hsmall

theorem getMemoryPercentage_unclamped_witness :
    (0 : Nat) < 16000000000 ∧ largeSample.getMemoryPercentage 16000000000 = 200 ∧
    100 < largeSample.getMemoryPercentage 16000000000 :=
  ⟨by decide, by decide!,
   (getMemoryPercentage_unclamped largeSample largeSample 16000000000 (by decide)).2.2.2
     (by decide) (by decide)⟩

/-- C4 as stated fails: a resident size of `2 ^ 53 + 1` exceeds a total RAM of `2 ^ 53`,
both convert to the same `double`, and the percentage is exactly 100, not more. -/
theorem getMemoryPercentage_not_above_hundred :
    (0 : Nat) < 9007199254740992 ∧ 9007199254740992 < hugeSample.getResidentSize ∧
    hugeSample.getMemoryPercentage 9007199254740992 = 100 ∧
    ¬ (100 < hugeSample.getMemoryPercentage 9007199254740992) := by
  decide!

/-- C5: with a total RAM of zero `getMemoryPercentage` returns `0.0` for every sample;
on every other total RAM the divisor of the division is the converted total, which is
not zero. -/
theorem getMemoryPercentage_zero_total (p : ProcessInfo) :
    p.getMemoryPercentage 0 = 0 ∧
    ∀ t : Nat, p.getMemoryPercentage (t + 1) =
        fmul (fdiv (ofU64 p.getResidentSize) (ofU64 (t + 1))) 100 ∧
      ofU64 (t + 1) ≠ 0 := by
  refine ⟨by simp [ProcessInfo.getMemoryPercentage], fun t => ⟨?_, ?_⟩⟩
  · unfold ProcessInfo.getMemoryPercentage ProcessInfo.getResidentSize
    rw [if_neg (Nat.succ_ne_zero t)]
  · have h := one_le_ofU64 (t + 1) (Nat.succ_pos t)
    intro h0
    rw [h0] at h
    exact absurd h (by norm_num)

/-! ## The cumulative column -/

theorem populateTable_filled (m : SystemMonitor) (row : TableRow)
    (hrow : row ∈ MainWindow.populateTable m) : RowFilled row := by
  unfold MainWindow.populateTable at hrow
  simp only [List.mem_map] at hrow
  obtain ⟨proc, -, rfl⟩ := hrow
  exact ⟨⟨_, rfl, getMemoryPercentage_nonneg _ _, getMemoryPercentage_rounded _ _⟩, _, rfl⟩

theorem rowPercentage_of_filled (row : TableRow) (h : RowFilled row) :
    0 ≤ rowPercentage row ∧ roundNE (rowPercentage row) = rowPercentage row := by
  obtain ⟨⟨v, hv, h0, hr⟩, -⟩ := h
  unfold rowPercentage
  rw [hv]
  exact ⟨h0, hr⟩

theorem recalcLoop_cons_filled (c : Double) (row : TableRow) (rest : List TableRow)
    (h : RowFilled row) :
    ∃ row1 : TableRow, cumulativeValue row1 = some (fadd c (rowPercentage row)) ∧
      MainWindow.recalcLoop c (row :: rest) =
        row1 :: MainWindow.recalcLoop (fadd c (rowPercentage row)) rest := by
  obtain ⟨⟨v, hv, -, -⟩, item, hitem⟩ := h
  rw [MainWindow.recalcLoop]
  unfold rowPercentage
  simp only [hv, hitem]
  refine ⟨_, ?_, rfl⟩
  rfl

theorem recalcLoop_get (rows : List TableRow) (hrows : ∀ row ∈ rows, RowFilled row)
    (c : Double) (k : Nat) (hk : k < rows.length) :
    ((MainWindow.recalcLoop c rows).get? k).bind cumulativeValue =
      some ((rows.take (k + 1)).foldl (fun acc row => fadd acc (rowPercentage row)) c) := by
  induction rows generalizing c k with
  | nil => simp at hk
  | cons row rest ih =>
    obtain ⟨row1, hval, hloop⟩ := recalcLoop_cons_filled c row rest (hrows row (by simp))
    rw [hloop]
    cases k with
    | zero => simpa using hval
    | succ j =>
      have hj : j < rest.length := by simpa using hk
      have := ih (fun r hr => hrows r (List.mem_cons_of_mem _ hr)) (fadd c (rowPercentage row)) j hj
      simpa using this

theorem recalcLoop_cumulativeValues (rows : List TableRow)
    (hrows : ∀ row ∈ rows, RowFilled row) (c : Double) (hc : roundNE c = c) :
    (cumulativeValues (MainWindow.recalcLoop c rows)).length = rows.length ∧
    (∀ x ∈ cumulativeValues (MainWindow.recalcLoop c rows), c ≤ x) ∧
    (cumulativeValues (MainWindow.recalcLoop c rows)).Pairwise (fun a b => a ≤ b) ∧
    (rows ≠ [] → (cumulativeValues (MainWindow.recalcLoop c rows)).getLast? =
      some (rows.foldl (fun acc row => fadd acc (rowPercentage row)) c)) := by
  induction rows generalizing c with
  | nil => simp [MainWindow.recalcLoop, cumulativeValues]
  | cons row rest ih =>
    have hfilled := hrows row (by simp)
    obtain ⟨row1, hval, hloop⟩ := recalcLoop_cons_filled c row rest hfilled
    obtain ⟨hp0, -⟩ := rowPercentage_of_filled row hfilled
    have hstep : c ≤ fadd c (rowPercentage row) := by
      have h := roundNE_mono c (c + rowPercentage row) (by linarith)
      rwa [hc] at h
    obtain ⟨ih1, ih2, ih3, ih4⟩ := ih (fun r hr => hrows r (List.mem_cons_of_mem _ hr))
      (fadd c (rowPercentage row)) (roundNE_idem _)
    have hcv : cumulativeValues (MainWindow.recalcLoop c (row :: rest)) =
        fadd c (rowPercentage row) ::
          cumulativeValues (MainWindow.recalcLoop (fadd c (rowPercentage row)) rest) := by
      rw [hloop]
      unfold cumulativeValues
      rw [List.filterMap_cons, hval]
    rw [hcv]
    refine ⟨by simp [ih1], ?_, ?_, ?_⟩
    · intro x hx
      rcases List.mem_cons.1 hx with rfl | hx
      · exact hstep
      · exact le_trans hstep (ih2 x hx)
    · exact List.Pairwise.cons ih2 ih3
    · intro _
      rw [List.getLast?_cons, List.foldl_cons]
      by_cases hrest : rest = []
      · subst hrest
        simp [MainWindow.recalcLoop, cumulativeValues]
      · rw [ih4 hrest]
        rfl

theorem recalcLoop_filled (rows : List TableRow) (hrows : ∀ row ∈ rows, RowFilled row)
    (c : Double) :
    (∀ row ∈ MainWindow.recalcLoop c rows, RowFilled row) ∧
    (MainWindow.recalcLoop c rows).map rowPercentage = rows.map rowPercentage := by
  induction rows generalizing c with
  | nil => simp [MainWindow.recalcLoop]
  | cons r rest ih =>
    obtain ⟨⟨v, hv, h0, hr⟩, item, hitem⟩ := hrows r (by simp)
    obtain ⟨ih1, ih2⟩ := ih (fun r1 hr1 => hrows r1 (List.mem_cons_of_mem _ hr1))
      (fadd c (QTableWidgetItem.mk (some v) none none).toDouble)
    rw [MainWindow.recalcLoop]
    simp only [hv, hitem]
    constructor
    · intro row hrow
      rcases List.mem_cons.1 hrow with rfl | hrest
      · exact ⟨⟨v, rfl, h0, hr⟩, _, rfl⟩
      · exact ih1 row hrest
    · rw [List.map_cons, List.map_cons, ih2]
      congr 1
      unfold rowPercentage
      simp only [hv]

/-! ## Claims C6 and C7 -/

/-- C6: for every table whose rows hold a percentage cell and a cumulative cell, in
whatever order the rows are displayed and whatever the cumulative cells held before,
`recalculateCumulativePercentage` stores in the row at display position `k` the sum of
the percentages of the rows at display positions `0 .. k`, added in that displayed
order. The rows `updateTable` stores are of this kind, a recalculation keeps them so and
leaves every percentage as it was, so this covers a table that was already calculated
and then sorted again. On a machine with 16,000,000,000 bytes and samples of
4,000,000,000, 2,000,000,000 and 1,000,000,000 bytes the percentages are 25, 12.5 and
6.25 and the cumulative values 25, 37.5 and 43.75; shown in the reverse order and
recalculated, the same table holds 6.25, 18.75 and 43.75. -/
theorem recalculateCumulativePercentage_display_order :
    (∀ displayed : List TableRow, (∀ row ∈ displayed, RowFilled row) →
      ∀ k : Nat, k < displayed.length →
        ((MainWindow.recalculateCumulativePercentage displayed).get? k).bind cumulativeValue =
          some (sumOfPercentages (displayed.take (k + 1)))) ∧
    (∀ (m : SystemMonitor), ∀ row ∈ MainWindow.populateTable m, RowFilled row) ∧
    (∀ rows : List TableRow, (∀ row ∈ rows, RowFilled row) →
      (∀ row ∈ MainWindow.recalculateCumulativePercentage rows, RowFilled row) ∧
      (MainWindow.recalculateCumulativePercentage rows).map rowPercentage =
        rows.map rowPercentage) ∧
    (MainWindow.populateTable demoMonitor).map rowPercentage = [25, 25 / 2, 25 / 4] ∧
    (MainWindow.recalculateCumulativePercentage
        (MainWindow.populateTable demoMonitor)).map cumulativeValue =
      [some 25, some (75 / 2), some (175 / 4)] ∧
    (MainWindow.recalculateCumulativePercentage resortedTable).map cumulativeValue =
      [some (25 / 4), some (75 / 4), some (175 / 4)] := by
  refine ⟨?_, ?_, ?_, by decide!, by decide!, by decide!⟩
  · intro displayed hfilled k hk
    exact recalcLoop_get displayed hfilled 0 k hk
  · exact fun m row hrow => populateTable_filled m row hrow
  · exact fun rows hfilled => recalcLoop_filled rows hfilled 0

theorem recalculateCumulativePercentage_display_order_witness :
    resortedTable.map cumulativeValue = [some (175 / 4), some (75 / 2), some 25] ∧
    ((MainWindow.recalculateCumulativePercentage resortedTable).get? 1).bind cumulativeValue =
      some (sumOfPercentages (resortedTable.take (1 + 1))) ∧
    sumOfPercentages (resortedTable.take (1 + 1)) = 75 / 4 :=
  ⟨by decide!,
   recalculateCumulativePercentage_display_order.1 resortedTable
     (fun row hrow =>
       (recalculateCumulativePercentage_display_order.2.2.1 _
         (recalculateCumulativePercentage_display_order.2.1 demoMonitor)).1 row
         (List.mem_reverse.1 hrow))
     1 (by decide!),
   by decide!⟩

/-- C7: for every table whose rows hold a percentage cell with a non-negative `double`
and a cumulative cell, in any displayed order and whatever the cumulative cells held
before, the cumulative values that `recalculateCumulativePercentage` stores form a
non-decreasing sequence with one value per row, and the last one is the sum of all the
percentages added in that order. The rows `updateTable` stores for any process list and
total RAM are of this kind, and a recalculation keeps them so and leaves every
percentage as it was. -/
theorem cumulativePercentages_monotone :
    (∀ displayed : List TableRow, (∀ row ∈ displayed, RowFilled row) →
      (cumulativeValues (MainWindow.recalculateCumulativePercentage displayed)).length =
        displayed.length ∧
      (cumulativeValues (MainWindow.recalculateCumulativePercentage displayed)).Pairwise
        (fun a b => a ≤ b) ∧
      (displayed ≠ [] →
        (cumulativeValues (MainWindow.recalculateCumulativePercentage displayed)).getLast? =
          some (sumOfPercentages displayed))) ∧
    (∀ (m : SystemMonitor), ∀ row ∈ MainWindow.populateTable m, RowFilled row) ∧
    (∀ rows : List TableRow, (∀ row ∈ rows, RowFilled row) →
      (∀ row ∈ MainWindow.recalculateCumulativePercentage rows, RowFilled row) ∧
      (MainWindow.recalculateCumulativePercentage rows).map rowPercentage =
        rows.map rowPercentage) := by
  refine ⟨?_, ?_, ?_⟩
  · intro displayed hfilled
    obtain ⟨h1, -, h3, h4⟩ := recalcLoop_cumulativeValues displayed hfilled 0 roundNE_zero
    exact ⟨h1, h3, h4⟩
  · exact fun m row hrow => populateTable_filled m row hrow
  · exact fun rows hfilled => recalcLoop_filled rows hfilled 0

theorem cumulativePercentages_monotone_witness :
    cumulativeValues resortedTable = [175 / 4, 75 / 2, 25] ∧
    cumulativeValues (MainWindow.recalculateCumulativePercentage resortedTable) =
      [25 / 4, 75 / 4, 175 / 4] ∧
    (cumulativeValues (MainWindow.recalculateCumulativePercentage resortedTable)).Pairwise
      (fun a b => a ≤ b) ∧
    (cumulativeValues (MainWindow.recalculateCumulativePercentage resortedTable)).getLast? =
      some (sumOfPercentages resortedTable) :=
  ⟨by decide!, by decide!,
   (cumulativePercentages_monotone.1 resortedTable
     (fun row hrow =>
       (cumulativePercentages_monotone.2.2 _
         (cumulativePercentages_monotone.2.1 demoMonitor)).1 row
         (List.mem_reverse.1 hrow))).2.1,
   (cumulativePercentages_monotone.1 resortedTable
     (fun row hrow =>
       (cumulativePercentages_monotone.2.2 _
         (cumulativePercentages_monotone.2.1 demoMonitor)).1 row
         (List.mem_reverse.1 hrow))).2.2 (by decide!)⟩

/-! ## The "Others" aggregate -/

/-- The count in the summary of `showOthersBreakdown` when `m_chartProcessCount` (here
the default, 25) exceeds the number of entries (here 1): it is negative. -/
theorem showOthersBreakdown_negative_count :
    MainWindow.showOthersBreakdown nearFullMonitor 25 =
      { othersCount := -24, othersMemory := 0 } := by
  decide!

/-- The monitor after a successful read of the counters `vm_stats`. -/
theorem collectSystemMemoryInfo_some (h : Host) (m : SystemMonitor) (vm_stats : VmStatistics64)
    (hs : h.host_statistics64 = some vm_stats) :
    SystemMonitor.collectSystemMemoryInfo h m =
      (true, { m with
        m_freeMemory := (vm_stats.free_count * h.page_size) % 2 ^ 64,
        m_activeMemory := (vm_stats.active_count * h.page_size) % 2 ^ 64,
        m_inactiveMemory := (vm_stats.inactive_count * h.page_size) % 2 ^ 64,
        m_wiredMemory := (vm_stats.wire_count * h.page_size) % 2 ^ 64 }) := by
  unfold SystemMonitor.collectSystemMemoryInfo
  rw [hs]

theorem collectSystemMemoryInfo_none (h : Host) (m : SystemMonitor)
    (hs : h.host_statistics64 = none) :
    SystemMonitor.collectSystemMemoryInfo h m = (false, m) := by
  unfold SystemMonitor.collectSystemMemoryInfo
  rw [hs]

theorem collectAllProcesses_listing_fails (h : Host) (m : SystemMonitor)
    (hl : h.listallpids_count ≤ 0 ∨ (h.listallpids_fill h.listallpids_count.toNat).1 ≤ 0) :
    SystemMonitor.collectAllProcesses h m = (false, m) := by
  unfold SystemMonitor.collectAllProcesses
  by_cases h1 : h.listallpids_count ≤ 0
  · simp [h1]
  · rcases hl with hl | hl
    · exact absurd hl h1
    · simp [h1, hl]

theorem collectAllProcesses_listing_ok (h : Host) (m : SystemMonitor)
    (h1 : 0 < h.listallpids_count)
    (h2 : 0 < (h.listallpids_fill h.listallpids_count.toNat).1) :
    SystemMonitor.collectAllProcesses h m =
      (true,
        { m with
          m_processes := stdSort residentGreater
            (SystemMonitor.collectLoop h.procSysAt 0 (enumeratedPids h) []) }) := by
  unfold SystemMonitor.collectAllProcesses enumeratedPids
  simp only [not_le.2 h1, not_le.2 h2, if_false]

theorem collectData_counters_fail_eq (h : Host) (m : SystemMonitor)
    (hs : h.host_statistics64 = none) :
    SystemMonitor.collectData h m =
      (m, Signal.errorOccurred "Failed to collect system memory information") := by
  unfold SystemMonitor.collectData
  simp [collectSystemMemoryInfo_none h m hs]

theorem collectData_listing_fail_eq (h : Host) (m : SystemMonitor) (vm_stats : VmStatistics64)
    (hs : h.host_statistics64 = some vm_stats)
    (hl : h.listallpids_count ≤ 0 ∨ (h.listallpids_fill h.listallpids_count.toNat).1 ≤ 0) :
    SystemMonitor.collectData h m =
      ((SystemMonitor.collectSystemMemoryInfo h m).2,
        Signal.errorOccurred "Failed to collect process information") := by
  unfold SystemMonitor.collectData
  simp [collectSystemMemoryInfo_some h m vm_stats hs, collectAllProcesses_listing_fails h _ hl]

theorem collectData_ok_eq (h : Host) (m : SystemMonitor) (vm_stats : VmStatistics64)
    (hs : h.host_statistics64 = some vm_stats) (h1 : 0 < h.listallpids_count)
    (h2 : 0 < (h.listallpids_fill h.listallpids_count.toNat).1) :
    SystemMonitor.collectData h m =
      ({ (SystemMonitor.collectSystemMemoryInfo h m).2 with
          m_processes := stdSort residentGreater
            (SystemMonitor.collectLoop h.procSysAt 0 (enumeratedPids h) []) },
        Signal.dataReady) := by
  unfold SystemMonitor.collectData
  simp [collectSystemMemoryInfo_some h m vm_stats hs, collectAllProcesses_listing_ok h _ h1 h2]

/-- The three outcomes of a cycle. -/
theorem collectData_cases (h : Host) (m : SystemMonitor) :
    (h.host_statistics64 = none ∧
      SystemMonitor.collectData h m =
        (m, Signal.errorOccurred "Failed to collect system memory information")) ∨
    ((∃ vm_stats, h.host_statistics64 = some vm_stats) ∧
      (h.listallpids_count ≤ 0 ∨ (h.listallpids_fill h.listallpids_count.toNat).1 ≤ 0) ∧
      SystemMonitor.collectData h m =
        ((SystemMonitor.collectSystemMemoryInfo h m).2,
          Signal.errorOccurred "Failed to collect process information")) ∨
    ((∃ vm_stats, h.host_statistics64 = some vm_stats) ∧ 0 < h.listallpids_count ∧
      0 < (h.listallpids_fill h.listallpids_count.toNat).1 ∧
      SystemMonitor.collectData h m =
        ({ (SystemMonitor.collectSystemMemoryInfo h m).2 with
            m_processes := stdSort residentGreater
              (SystemMonitor.collectLoop h.procSysAt 0 (enumeratedPids h) []) },
          Signal.dataReady)) := by
  cases hs : h.host_statistics64 with
  | none => exact Or.inl ⟨rfl, collectData_counters_fail_eq h m hs⟩
  | some vm_stats =>
    by_cases hl : h.listallpids_count ≤ 0 ∨ (h.listallpids_fill h.listallpids_count.toNat).1 ≤ 0
    · exact Or.inr (Or.inl ⟨⟨_, rfl⟩, hl, collectData_listing_fail_eq h m vm_stats hs hl⟩)
    · rw [not_or, not_le, not_le] at hl
      exact Or.inr (Or.inr ⟨⟨_, rfl⟩, hl.1, hl.2, collectData_ok_eq h m vm_stats hs hl.1 hl.2⟩)

theorem collectSystemMemoryInfo_frame (h : Host) (m : SystemMonitor) :
    (SystemMonitor.collectSystemMemoryInfo h m).2.m_totalPhysicalRAM = m.m_totalPhysicalRAM ∧
    (SystemMonitor.collectSystemMemoryInfo h m).2.m_processes = m.m_processes := by
  unfold SystemMonitor.collectSystemMemoryInfo
  split <;> exact ⟨rfl, rfl⟩

theorem collectData_total (h : Host) (m : SystemMonitor) :
    (SystemMonitor.collectData h m).1.m_totalPhysicalRAM = m.m_totalPhysicalRAM := by
  rcases collectData_cases h m with ⟨-, he⟩ | ⟨-, -, he⟩ | ⟨-, -, -, he⟩
  · rw [he]
  · rw [he]; exact (collectSystemMemoryInfo_frame h m).1
  · rw [he]; exact (collectSystemMemoryInfo_frame h m).1

theorem runCycles_total (hosts : List Host) (m : SystemMonitor) :
    (SystemMonitor.runCycles hosts m).m_totalPhysicalRAM = m.m_totalPhysicalRAM := by
  induction hosts generalizing m with
  | nil => rfl
  | cons h hs ih =>
    unfold SystemMonitor.runCycles
    rw [ih, collectData_total]

theorem collectLoop_all_unreadable (procSysAt : Nat → ProcSys) (pids : List Int)
    (hall : ∀ i pid, (procSysAt i).proc_pidinfo pid = none) :
    SystemMonitor.collectLoop procSysAt 0 pids [] = [] := by
  rw [collectLoop_eq, List.nil_append, List.filter_eq_nil_iff]
  intro p hp
  rw [List.mem_map] at hp
  obtain ⟨jp, -, rfl⟩ := hp
  intro hv
  have h := (ofPid_valid (procSysAt jp.1) jp.2 hv).2
  rw [hall jp.1 jp.2] at h
  exact absurd h (by simp)

/-! ## Claims C11, C12 and C15 -/

/-- C11 (amended): a `collectData` cycle that fails leaves the total RAM and the process
list as they were before the cycle. When it fails at the memory statistics query the
whole state is unchanged; when it fails at the process listing, after the counters were
read, the free, active, inactive and wired counters hold the newly read values next to
the old process list. -/
theorem collectData_failure_state (h : Host) (m : SystemMonitor)
    (hfail : (SystemMonitor.collectData h m).2 ≠ Signal.dataReady) :
    (SystemMonitor.collectData h m).1.getTotalPhysicalRAM = m.getTotalPhysicalRAM ∧
    (SystemMonitor.collectData h m).1.getProcesses = m.getProcesses ∧
    (h.host_statistics64 = none → (SystemMonitor.collectData h m).1 = m) ∧
    (∀ vm_stats : VmStatistics64, h.host_statistics64 = some vm_stats →
      (SystemMonitor.collectData h m).1.getFreeMemory =
        (vm_stats.free_count * h.page_size) % 2 ^ 64 ∧
      (SystemMonitor.collectData h m).1.getActiveMemory =
        (vm_stats.active_count * h.page_size) % 2 ^ 64 ∧
      (SystemMonitor.collectData h m).1.getInactiveMemory =
        (vm_stats.inactive_count * h.page_size) % 2 ^ 64 ∧
      (SystemMonitor.collectData h m).1.getWiredMemory =
        (vm_stats.wire_count * h.page_size) % 2 ^ 64) := by
  rcases collectData_cases h m with ⟨hs, he⟩ | ⟨⟨vm, hs⟩, -, he⟩ | ⟨-, -, -, he⟩
  · rw [he]
    refine ⟨rfl, rfl, fun _ => rfl, ?_⟩
    intro vm_stats hvm
    rw [hs] at hvm
    exact absurd hvm (by simp)
  · rw [he, collectSystemMemoryInfo_some h m vm hs]
    refine ⟨rfl, rfl, ?_, ?_⟩
    · intro hnone
      rw [hs] at hnone
      exact absurd hnone (by simp)
    · intro vm_stats hvm
      rw [hs] at hvm
      have hv := Option.some.inj hvm
      subst hv
      exact ⟨rfl, rfl, rfl, rfl⟩
  · rw [he] at hfail
    exact absurd rfl hfail

theorem collectData_failure_state_witness :
    (SystemMonitor.collectData listingFailsHost staleMonitor).2 ≠ Signal.dataReady ∧
    (SystemMonitor.collectData listingFailsHost staleMonitor).1.getTotalPhysicalRAM =
      staleMonitor.getTotalPhysicalRAM ∧
    (SystemMonitor.collectData listingFailsHost staleMonitor).1.getProcesses =
      staleMonitor.getProcesses :=
  ⟨by decide,
   (collectData_failure_state listingFailsHost staleMonitor (by decide)).1,
   (collectData_failure_state listingFailsHost staleMonitor (by decide)).2.1⟩

/-- C11 as stated fails: when the counters are read and the process listing then reports
no pids, the cycle ends with the enumeration error, the free-memory getter returns the
new value 40960 instead of the 111 from before the cycle, and the process list is still
the old one. -/
theorem collectData_listing_failure_mixes_state :
    (SystemMonitor.collectData listingFailsHost staleMonitor).2 =
      Signal.errorOccurred "Failed to collect process information" ∧
    staleMonitor.getFreeMemory = 111 ∧
    (SystemMonitor.collectData listingFailsHost staleMonitor).1.getFreeMemory = 40960 ∧
    (SystemMonitor.collectData listingFailsHost staleMonitor).1.getProcesses =
      staleMonitor.getProcesses ∧
    (SystemMonitor.collectData listingFailsHost staleMonitor).1 ≠ staleMonitor := by
  decide

/-- C12: `collectData` emits the counters error, and returns without looking at the
process listing, when the memory statistics query fails; it emits the enumeration error
when the statistics succeed and one of the two listing calls returns a count of zero or
less; in every other case it emits `dataReady`, so an error is emitted exactly in those
two cases. Per-process read failures do not fail the cycle: when every per-process read
fails the cycle emits `dataReady` and stores an empty process list. -/
theorem collectData_signal (h : Host) (m : SystemMonitor) :
    (h.host_statistics64 = none →
      SystemMonitor.collectData h m =
        (m, Signal.errorOccurred "Failed to collect system memory information")) ∧
    (h.host_statistics64 ≠ none →
      (h.listallpids_count ≤ 0 ∨ (h.listallpids_fill h.listallpids_count.toNat).1 ≤ 0) →
      (SystemMonitor.collectData h m).2 =
        Signal.errorOccurred "Failed to collect process information") ∧
    ((SystemMonitor.collectData h m).2 ≠ Signal.dataReady ↔
      (h.host_statistics64 = none ∨ h.listallpids_count ≤ 0 ∨
        (h.listallpids_fill h.listallpids_count.toNat).1 ≤ 0)) ∧
    (h.host_statistics64 ≠ none → 0 < h.listallpids_count →
      0 < (h.listallpids_fill h.listallpids_count.toNat).1 →
      (∀ i pid, (h.procSysAt i).proc_pidinfo pid = none) →
      (SystemMonitor.collectData h m).2 = Signal.dataReady ∧
      (SystemMonitor.collectData h m).1.getProcesses = []) := by
  refine ⟨fun hs => collectData_counters_fail_eq h m hs, ?_, ?_, ?_⟩
  · intro hs hl
    obtain ⟨vm, hvm⟩ := Option.ne_none_iff_exists'.1 hs
    rw [collectData_listing_fail_eq h m vm hvm hl]
  · rcases collectData_cases h m with ⟨hs, he⟩ | ⟨⟨vm, hs⟩, hl, he⟩ | ⟨⟨vm, hs⟩, h1, h2, he⟩
    · rw [he]
      exact ⟨fun _ => Or.inl hs, fun _ => by simp⟩
    · rw [he]
      exact ⟨fun _ => Or.inr hl, fun _ => by simp⟩
    · rw [he]
      constructor
      · intro hne
        exact absurd rfl hne
      · rintro (hnone | hc | hc)
        · rw [hs] at hnone
          exact absurd hnone (by simp)
        · omega
        · omega
  · intro hs h1 h2 hall
    obtain ⟨vm, hvm⟩ := Option.ne_none_iff_exists'.1 hs
    rw [collectData_ok_eq h m vm hvm h1 h2, collectLoop_all_unreadable _ _ hall]
    exact ⟨rfl, rfl⟩

theorem collectData_signal_witness :
    (SystemMonitor.collectData unreadableHost staleMonitor).2 = Signal.dataReady ∧
    (SystemMonitor.collectData unreadableHost staleMonitor).1.getProcesses = [] :=
  (collectData_signal unreadableHost staleMonitor).2.2.2 (by decide) (by decide) (by decide)
    (fun _ _ => rfl)

/-- C15: the total physical RAM is the value the constructor stored (the answer of the
`HW_MEMSIZE` query, or 0 when the query fails); `collectData` returns a monitor with the
same total RAM whatever the host answers (success, counters failure or enumeration
failure), and so does any sequence of cycles run on a freshly constructed monitor. -/
theorem collectData_preserves_total (h : Host) (m : SystemMonitor) (hosts : List Host)
    (hw_memsize : Option Nat) :
    (SystemMonitor.collectData h m).1.getTotalPhysicalRAM = m.getTotalPhysicalRAM ∧
    (SystemMonitor.runCycles hosts m).getTotalPhysicalRAM = m.getTotalPhysicalRAM ∧
    (SystemMonitor.runCycles hosts (SystemMonitor.construct hw_memsize)).getTotalPhysicalRAM =
      (match hw_memsize with
        | some v => v % 2 ^ 64
        | none => 0) := by
  refine ⟨collectData_total h m, runCycles_total hosts m, ?_⟩
  unfold SystemMonitor.getTotalPhysicalRAM
  rw [runCycles_total]
  cases hw_memsize <;> rfl

/-! ## Names and paths -/

theorem strrchr_none_iff (s : List Char) (c : Char) : strrchr s c = none ↔ c ∉ s := by
  induction s with
  | nil => simp [strrchr]
  | cons x xs ih =>
    unfold strrchr
    cases hr : strrchr xs c with
    | some r =>
      have hmem : c ∈ xs := by
        by_contra hc
        rw [ih.2 hc] at hr
        exact absurd hr (by simp)
      simp [hmem]
    | none =>
      have hnot : c ∉ xs := ih.1 hr
      by_cases hx : x = c
      · simp [hx]
      · simp [hx, hnot, Ne.symm hx]

theorem strrchr_some (s : List Char) (c : Char) (r : List Char) (h : strrchr s c = some r) :
    ∃ pre tail : List Char, s = pre ++ c :: tail ∧ r = c :: tail ∧ c ∉ tail := by
  induction s generalizing r with
  | nil => simp [strrchr] at h
  | cons x xs ih =>
    unfold strrchr at h
    cases hr : strrchr xs c with
    | some r1 =>
      rw [hr] at h
      have hr1 : r1 = r := Option.some.inj h
      subst hr1
      obtain ⟨pre, tail, hxs, hrt, hnot⟩ := ih r1 hr
      exact ⟨x :: pre, tail, by rw [hxs]; rfl, hrt, hnot⟩
    | none =>
      rw [hr] at h
      by_cases hx : x = c
      · rw [if_pos hx] at h
        have hxs : x :: xs = r := Option.some.inj h
        subst hx
        exact ⟨[], xs, rfl, hxs.symm, (strrchr_none_iff xs x).1 hr⟩
      · rw [if_neg hx] at h
        exact absurd h (by simp)

theorem collectProcessInfo_path_slash (sys : ProcSys) (p : ProcessInfo) (ti : ProcTaskInfo)
    (pathBuffer lastSlash : List Char) (hq : sys.proc_pidinfo p.m_pid = some ti)
    (hpath : sys.proc_pidpath p.m_pid = some pathBuffer)
    (hslash : strrchr pathBuffer '/' = some lastSlash) :
    ProcessInfo.collectProcessInfo sys p =
      (true, { m_pid := p.m_pid, m_name := lastSlash.drop 1, m_path := pathBuffer,
               m_residentSize := ti.pti_resident_size,
               m_virtualSize := ti.pti_virtual_size, m_valid := true }) := by
  unfold ProcessInfo.collectProcessInfo
  simp only [hq, hpath, hslash]

theorem collectProcessInfo_path_plain (sys : ProcSys) (p : ProcessInfo) (ti : ProcTaskInfo)
    (pathBuffer : List Char) (hq : sys.proc_pidinfo p.m_pid = some ti)
    (hpath : sys.proc_pidpath p.m_pid = some pathBuffer)
    (hslash : strrchr pathBuffer '/' = none) :
    ProcessInfo.collectProcessInfo sys p =
      (true, { m_pid := p.m_pid, m_name := pathBuffer, m_path := pathBuffer,
               m_residentSize := ti.pti_resident_size,
               m_virtualSize := ti.pti_virtual_size, m_valid := true }) := by
  unfold ProcessInfo.collectProcessInfo
  simp only [hq, hpath, hslash]

theorem collectProcessInfo_short_name (sys : ProcSys) (p : ProcessInfo) (ti : ProcTaskInfo)
    (nameBuffer : List Char) (hq : sys.proc_pidinfo p.m_pid = some ti)
    (hpath : sys.proc_pidpath p.m_pid = none)
    (hname : sys.proc_name p.m_pid = some nameBuffer) :
    ProcessInfo.collectProcessInfo sys p =
      (true, { m_pid := p.m_pid, m_name := nameBuffer, m_path := [],
               m_residentSize := ti.pti_resident_size,
               m_virtualSize := ti.pti_virtual_size, m_valid := true }) := by
  unfold ProcessInfo.collectProcessInfo
  simp only [hq, hpath, hname]

theorem collectProcessInfo_unknown (sys : ProcSys) (p : ProcessInfo) (ti : ProcTaskInfo)
    (hq : sys.proc_pidinfo p.m_pid = some ti)
    (hpath : sys.proc_pidpath p.m_pid = none)
    (hname : sys.proc_name p.m_pid = none) :
    ProcessInfo.collectProcessInfo sys p =
      (true, { m_pid := p.m_pid, m_name := "Unknown".toList, m_path := [],
               m_residentSize := ti.pti_resident_size,
               m_virtualSize := ti.pti_virtual_size, m_valid := true }) := by
  unfold ProcessInfo.collectProcessInfo
  simp only [hq, hpath, hname]

theorem collectProcessInfo_fails (sys : ProcSys) (p : ProcessInfo)
    (hq : sys.proc_pidinfo p.m_pid = none) :
    (ProcessInfo.collectProcessInfo sys p).1 = false := by
  unfold ProcessInfo.collectProcessInfo
  simp only [hq]

/-! ## Claims C13, C14 and C16 -/

/-- C13: for a sample on which `collectProcessInfo` succeeds (the memory query worked, so
the sample is valid): if the path lookup succeeds, the path is the resolved path and the
name is what follows the last `/` of it, or the whole path when it has no `/`; if the
path lookup fails, the path is empty and the name is the short name reported by the
host when that lookup succeeds and the text "Unknown" when it does not. -/
theorem collectProcessInfo_name_path (sys : ProcSys) (p : ProcessInfo)
    (hok : (ProcessInfo.collectProcessInfo sys p).1 = true) :
    (ProcessInfo.collectProcessInfo sys p).2.isValid = true ∧
    (∀ pathBuffer : List Char, sys.proc_pidpath p.getPid = some pathBuffer →
      (ProcessInfo.collectProcessInfo sys p).2.getPath = pathBuffer ∧
      ('/' ∈ pathBuffer →
        ∃ pre : List Char,
          pathBuffer = pre ++ '/' :: (ProcessInfo.collectProcessInfo sys p).2.getName ∧
          '/' ∉ (ProcessInfo.collectProcessInfo sys p).2.getName) ∧
      ('/' ∉ pathBuffer → (ProcessInfo.collectProcessInfo sys p).2.getName = pathBuffer)) ∧
    (sys.proc_pidpath p.getPid = none →
      (ProcessInfo.collectProcessInfo sys p).2.getPath = [] ∧
      (∀ nameBuffer : List Char, sys.proc_name p.getPid = some nameBuffer →
        (ProcessInfo.collectProcessInfo sys p).2.getName = nameBuffer) ∧
      (sys.proc_name p.getPid = none →
        (ProcessInfo.collectProcessInfo sys p).2.getName = "Unknown".toList)) := by
  unfold ProcessInfo.getPid ProcessInfo.getPath ProcessInfo.getName ProcessInfo.isValid
  cases hq : sys.proc_pidinfo p.m_pid with
  | none =>
    rw [collectProcessInfo_fails sys p hq] at hok
    exact absurd hok (by simp)
  | some ti =>
    cases hpath : sys.proc_pidpath p.m_pid with
    | some pathBuffer =>
      cases hslash : strrchr pathBuffer '/' with
      | some lastSlash =>
        obtain ⟨pre, tail, hs, hr, hnot⟩ := strrchr_some pathBuffer '/' lastSlash hslash
        rw [collectProcessInfo_path_slash sys p ti pathBuffer lastSlash hq hpath hslash]
        refine ⟨rfl, ?_, fun hnone => absurd hnone (by simp)⟩
        intro pb hpb
        have hpb1 : pathBuffer = pb := Option.some.inj hpb
        subst hpb1
        have hname : lastSlash.drop 1 = tail := by rw [hr]; rfl
        refine ⟨rfl, fun _ => ⟨pre, ?_, ?_⟩, fun hno => ?_⟩
        · show pathBuffer = pre ++ '/' :: lastSlash.drop 1
          rw [hname]; exact hs
        · show '/' ∉ lastSlash.drop 1
          rw [hname]; exact hnot
        · rw [(strrchr_none_iff pathBuffer '/').2 hno] at hslash
          exact absurd hslash (by simp)
      | none =>
        rw [collectProcessInfo_path_plain sys p ti pathBuffer hq hpath hslash]
        refine ⟨rfl, ?_, fun hnone => absurd hnone (by simp)⟩
        intro pb hpb
        have hpb1 : pathBuffer = pb := Option.some.inj hpb
        subst hpb1
        exact ⟨rfl, fun hin => absurd hin ((strrchr_none_iff pathBuffer '/').1 hslash),
          fun _ => rfl⟩
    | none =>
      cases hname : sys.proc_name p.m_pid with
      | some nameBuffer =>
        rw [collectProcessInfo_short_name sys p ti nameBuffer hq hpath hname]
        exact ⟨rfl, fun pb hpb => absurd hpb (by simp),
          fun _ => ⟨rfl, fun nb hnb => Option.some.inj hnb, fun hnone => absurd hnone (by simp)⟩⟩
      | none =>
        rw [collectProcessInfo_unknown sys p ti hq hpath hname]
        exact ⟨rfl, fun pb hpb => absurd hpb (by simp),
          fun _ => ⟨rfl, fun nb hnb => absurd hnb (by simp), fun _ => rfl⟩⟩

theorem collectProcessInfo_name_path_witness :
    (ProcessInfo.collectProcessInfo pathSys hugeSample).2.getPath = "/usr/sbin/cfprefsd".toList ∧
    (ProcessInfo.collectProcessInfo pathSys hugeSample).2.getName = "cfprefsd".toList ∧
    (ProcessInfo.collectProcessInfo namelessSys hugeSample).2.getPath = [] ∧
    (ProcessInfo.collectProcessInfo namelessSys hugeSample).2.getName = "Unknown".toList :=
  ⟨((collectProcessInfo_name_path pathSys hugeSample (by decide)).2.1
      "/usr/sbin/cfprefsd".toList rfl).1,
   by decide,
   ((collectProcessInfo_name_path namelessSys hugeSample (by decide)).2.2 rfl).1,
   ((collectProcessInfo_name_path namelessSys hugeSample (by decide)).2.2 rfl).2.2 rfl⟩

/-- C14: `getUsedMemory` is the 64-bit unsigned sum of the active, wired and inactive
counters (the plain sum when that is below `2 ^ 64`); two monitors that agree on these
three counters have the same used memory, whatever their free memory, total RAM and
process lists are; and the used figure of the status bar is the same number. -/
theorem getUsedMemory_sum (m other : SystemMonitor) :
    m.getUsedMemory = (m.getActiveMemory + m.getWiredMemory + m.getInactiveMemory) % 2 ^ 64 ∧
    (m.getActiveMemory + m.getWiredMemory + m.getInactiveMemory < 2 ^ 64 →
      m.getUsedMemory = m.getActiveMemory + m.getWiredMemory + m.getInactiveMemory) ∧
    (other.getActiveMemory = m.getActiveMemory → other.getWiredMemory = m.getWiredMemory →
      other.getInactiveMemory = m.getInactiveMemory →
      other.getUsedMemory = m.getUsedMemory) ∧
    (MainWindow.updateStatusBar m).usedRAM = m.getUsedMemory := by
  refine ⟨rfl, fun hlt => Nat.mod_eq_of_lt hlt, ?_, rfl⟩
  intro ha hw hi
  unfold SystemMonitor.getActiveMemory at ha
  unfold SystemMonitor.getWiredMemory at hw
  unfold SystemMonitor.getInactiveMemory at hi
  unfold SystemMonitor.getUsedMemory
  rw [ha, hw, hi]

theorem getUsedMemory_sum_witness :
    staleMonitor.getUsedMemory = 999 ∧
    (MainWindow.updateStatusBar staleMonitor).usedRAM = 999 ∧
    ({ staleMonitor with m_freeMemory := 5, m_totalPhysicalRAM := 7, m_processes := [] }
      : SystemMonitor).getUsedMemory = staleMonitor.getUsedMemory :=
  ⟨by decide, by decide,
   (getUsedMemory_sum staleMonitor
      { staleMonitor with m_freeMemory := 5, m_totalPhysicalRAM := 7, m_processes := [] }).2.2.1
      rfl rfl rfl⟩

theorem ofPid_valid_of_readable (sys : ProcSys) (pid : Int) (hpos : 0 < pid)
    (hread : (sys.proc_pidinfo pid).isSome = true) :
    (ProcessInfo.ofPid sys pid).isValid = true := by
  unfold ProcessInfo.ofPid ProcessInfo.update ProcessInfo.isValid
  rw [if_neg (not_le.2 hpos), collectProcessInfo_valid]
  exact hread

theorem collectAllProcesses_stored (h : Host) (m : SystemMonitor)
    (hs : (SystemMonitor.collectAllProcesses h m).1 = true) :
    (SystemMonitor.collectAllProcesses h m).2.m_processes =
      stdSort residentGreater ((enumeratedSamples h).filter ProcessInfo.isValid) := by
  by_cases hl : h.listallpids_count ≤ 0 ∨ (h.listallpids_fill h.listallpids_count.toNat).1 ≤ 0
  · rw [collectAllProcesses_listing_fails h m hl] at hs
    exact absurd hs (by simp)
  · rw [not_or, not_le, not_le] at hl
    rw [collectAllProcesses_listing_ok h m hl.1 hl.2, collectLoop_eq, List.nil_append]
    rfl

theorem countP_enumFrom_snd (q : Int → Bool) (l : List Int) (n : Nat) :
    (l.enumFrom n).countP (fun jp => q jp.2) = l.countP q := by
  have h := List.countP_map q Prod.snd (l.enumFrom n)
  rw [List.enumFrom_map_snd] at h
  rw [h]
  rfl

/-! ## Claim C18 -/

/-- C18: after a successful `collectAllProcesses` the stored list is a permutation of the
valid ones among the samples built for the enumerated pids: every such sample occurs in
both exactly as often, and the lengths agree; the entries with a given pid are as many as
the enumerated positions holding that pid whose sample is valid, hence as many as the
pid was enumerated when it is positive and every read of it succeeds; and the stored
list is the same whatever monitor the cycle started from, so nothing of the previous
list remains. -/
theorem collectAllProcesses_perm (h : Host) (m previous : SystemMonitor)
    (hs : (SystemMonitor.collectAllProcesses h m).1 = true) :
    (SystemMonitor.collectAllProcesses h m).2.getProcesses.Perm
      ((enumeratedSamples h).filter ProcessInfo.isValid) ∧
    (∀ p : ProcessInfo, (SystemMonitor.collectAllProcesses h m).2.getProcesses.count p =
      ((enumeratedSamples h).filter ProcessInfo.isValid).count p) ∧
    (SystemMonitor.collectAllProcesses h m).2.getProcesses.length =
      ((enumeratedSamples h).filter ProcessInfo.isValid).length ∧
    (∀ pid : Int,
      (SystemMonitor.collectAllProcesses h m).2.getProcesses.countP
          (fun p => decide (p.getPid = pid)) =
        ((enumeratedPids h).enumFrom 0).countP
          (fun jp => decide (jp.2 = pid) &&
            (ProcessInfo.ofPid (h.procSysAt jp.1) jp.2).isValid)) ∧
    (∀ pid : Int, 0 < pid → (∀ i, ((h.procSysAt i).proc_pidinfo pid).isSome = true) →
      (SystemMonitor.collectAllProcesses h m).2.getProcesses.countP
          (fun p => decide (p.getPid = pid)) =
        (enumeratedPids h).count pid) ∧
    (SystemMonitor.collectAllProcesses h previous).2.getProcesses =
      (SystemMonitor.collectAllProcesses h m).2.getProcesses := by
  have hstored := collectAllProcesses_stored h m hs
  have hperm : (SystemMonitor.collectAllProcesses h m).2.getProcesses.Perm
      ((enumeratedSamples h).filter ProcessInfo.isValid) := by
    unfold SystemMonitor.getProcesses
    rw [hstored]
    exact stdSort_perm _ _
  have hcount : ∀ pid : Int,
      (SystemMonitor.collectAllProcesses h m).2.getProcesses.countP
          (fun p => decide (p.getPid = pid)) =
        ((enumeratedPids h).enumFrom 0).countP
          (fun jp => decide (jp.2 = pid) &&
            (ProcessInfo.ofPid (h.procSysAt jp.1) jp.2).isValid) := by
    intro pid
    rw [hperm.countP_eq, List.countP_filter]
    unfold enumeratedSamples
    rw [List.countP_map]
    apply List.countP_congr
    intro jp _
    simp only [Function.comp, ProcessInfo.getPid, ofPid_pid]
  refine ⟨hperm, fun p => hperm.count_eq p, hperm.length_eq, hcount, ?_, ?_⟩
  · intro pid hpos hread
    rw [hcount pid, List.count_eq_countP, ← countP_enumFrom_snd (fun x => x == pid) _ 0]
    apply List.countP_congr
    intro jp _
    by_cases hj : jp.2 = pid
    · have hv := ofPid_valid_of_readable (h.procSysAt jp.1) pid hpos (hread jp.1)
      simp [hj, hv]
    · simp [hj]
  · have hs2 : (SystemMonitor.collectAllProcesses h previous).1 = true := by
      by_cases hl : h.listallpids_count ≤ 0 ∨
          (h.listallpids_fill h.listallpids_count.toNat).1 ≤ 0
      · rw [collectAllProcesses_listing_fails h m hl] at hs
        exact absurd hs (by simp)
      · rw [not_or, not_le, not_le] at hl
        rw [collectAllProcesses_listing_ok h previous hl.1 hl.2]
    unfold SystemMonitor.getProcesses
    rw [hstored, collectAllProcesses_stored h previous hs2]

theorem collectAllProcesses_perm_witness :
    (SystemMonitor.collectAllProcesses mixedHost staleMonitor).1 = true ∧
    ((enumeratedSamples mixedHost).filter ProcessInfo.isValid).length = 2 ∧
    (SystemMonitor.collectAllProcesses mixedHost staleMonitor).2.getProcesses.length = 2 ∧
    (SystemMonitor.collectAllProcesses mixedHost emptyMonitor).2.getProcesses =
      (SystemMonitor.collectAllProcesses mixedHost staleMonitor).2.getProcesses :=
  ⟨by decide, by decide,
   (collectAllProcesses_perm mixedHost staleMonitor emptyMonitor (by decide)).2.2.1.trans
     (by decide),
   (collectAllProcesses_perm mixedHost staleMonitor emptyMonitor (by decide)).2.2.2.2.2⟩

end MemoryMonitor
